import Mathlib

/-!
Verification of the teetool trajectory-modelling library
(src/teetool/model.py and src/teetool/gaussianprocess.py).

The development shallowly embeds the code over exact rationals:

* `EF` models IEEE floating-point values as rationals extended with
  `+inf`, `-inf` and `NaN`; only the operations the source relies on
  (subtraction, absolute value, ordering, minima, finiteness tests)
  are embedded, with IEEE semantics for the non-finite values.
* `emLoop` embeds the convergence loop of
  `GaussianProcess.model_by_em` (gaussianprocess.py lines 224-284);
  the per-iteration state update and log-likelihood computation are
  parameters, since their bodies involve `numpy.linalg.inv` and the
  external `tt.basis` module.
* `np_interp` embeds `numpy.interp`, and the `resampling_*`
  definitions embed `GaussianProcess.model_by_resampling`.
* list-of-list grids embed the numpy arrays of the query layer
  (`Model.evalLogLikelihood`, `Model.isInside_grid`,
  `Model.isInside_pnts`) including the grid/point conversions, the
  result cache, broadcasting array comparison and the
  squeeze/transpose/any pipeline.

Values produced by transcendental functions (`np.log`) and by
external numerical routines (`numpy.linalg.cond`, `pinv`, `inv`,
`tt.basis`, `tt.helpers.in_hull`) are not rational; where a claim
depends on such a value the embedding takes it as an explicit
parameter so that every definition stays executable.
-/

/-! ### Definitions -/

/-- A floating-point value as the source observes it: a finite
rational, `np.inf`, `-np.inf`, or `NaN`. -/
inductive EF where
  | fin (q : ℚ)
  | pinf
  | ninf
  | nan
deriving DecidableEq, Repr

/-- `np.isfinite`. -/
def EF.isFinite : EF → Bool
  | .fin _ => true
  | _ => false

/-- `np.isnan`. -/
def EF.isNan : EF → Bool
  | .nan => true
  | _ => false

/-- IEEE subtraction on extended values (used for
`loglikelihood_pY - loglikelihood_previous`). -/
def EF.sub : EF → EF → EF
  | .fin a, .fin b => .fin (a - b)
  | .fin _, .pinf => .ninf
  | .fin _, .ninf => .pinf
  | .pinf, .fin _ => .pinf
  | .pinf, .pinf => .nan
  | .pinf, .ninf => .pinf
  | .ninf, .fin _ => .ninf
  | .ninf, .pinf => .ninf
  | .ninf, .ninf => .nan
  | .nan, _ => .nan
  | _, .nan => .nan

/-- `np.abs` on extended values. -/
def EF.eabs : EF → EF
  | .fin a => .fin (abs a)
  | .pinf => .pinf
  | .ninf => .pinf
  | .nan => .nan

/-- IEEE `<` on extended values: every comparison with `NaN` is
false. -/
def EF.blt : EF → EF → Bool
  | .fin a, .fin b => decide (a < b)
  | .fin _, .pinf => true
  | .fin _, .ninf => false
  | .ninf, .fin _ => true
  | .ninf, .pinf => true
  | .pinf, _ => false
  | .ninf, .ninf => false
  | .ninf, .nan => false
  | .fin _, .nan => false
  | .nan, _ => false

/-- IEEE pairwise minimum on non-NaN values; `NaN` propagates (as in
`np.minimum`). -/
def EF.emin : EF → EF → EF
  | .fin a, .fin b => .fin (min a b)
  | .fin a, .pinf => .fin a
  | .fin _, .ninf => .ninf
  | .pinf, b => b
  | .ninf, _ => .ninf
  | .nan, _ => .nan
  | .fin _, .nan => .nan

/-- `CONV_LIKELIHOOD = 1e-3` (gaussianprocess.py line 215). -/
def CONV_LIKELIHOOD : ℚ := 1/1000

/-- `maximum_iterations=2001`, the default of
`GaussianProcess.model_by_em` (line 195); `Model.__init__` calls
`model_by_em` without that argument (model.py lines 76-77), so model
construction always uses this default. -/
def emMaxIterationsDefault : ℕ := 2001

/-- The convergence loop of `GaussianProcess.model_by_em`
(gaussianprocess.py lines 226-284).  One iteration updates the state
`(mu_w, sig_w, sig_w_inv, BETA_EM)` via the E- and M-steps (`step`,
a parameter: its body uses `numpy.linalg.inv` and the external
`tt.basis`) and then computes the total log-likelihood of the updated
state (`lik`).  If the log-likelihood is finite and the absolute
change from the previous iteration is below `CONV_LIKELIHOOD` the
loop breaks; if it is not finite the loop prints a warning and
breaks; otherwise the previous log-likelihood (initially `np.inf`) is
replaced and the loop continues, for at most `fuel` iterations
(`for i_iter in range(MAX_ITERATIONS)`).

The result is the final state together with the number of iterations
that were executed. -/
def emLoop {σ : Type} (step : σ → σ) (lik : σ → EF) : ℕ → σ → EF → σ × ℕ
  | 0, s, _ => (s, 0)
  | n+1, s, prev =>
      let s1 := step s
      let L := lik s1
      if L.isFinite then
        if ((L.sub prev).eabs.blt (.fin CONV_LIKELIHOOD)) then (s1, 1)
        else
          let r := emLoop step lik n s1 L
          (r.1, r.2 + 1)
      else (s1, 1)

/-- The likelihood sequence used to refute the "returns the last
finite state" reading: states count iterations, state `1` has finite
log-likelihood `0`, state `2` has log-likelihood `NaN`. -/
def c4Lik : ℕ → EF := fun s => if s ≤ 1 then EF.fin 0 else EF.nan

/-! ## The resampling estimator (gaussianprocess.py lines 20-33, 39-69, 77-126) -/

/-- Trajectory data in the source's format: a list of `(x, Y)` where
`x` is the parameter list and `Y` the list of observation rows (one
row of length `ndim` per parameter value). -/
abbrev ClusterData := List (List ℚ × List (List ℚ))

/-- Column `d` of an observation matrix `Y` (`Yn[:, d]`). -/
def dimCol (Y : List (List ℚ)) (d : ℕ) : List ℚ := Y.map (fun r => r.getD d 0)

/-- Minimum of a list (`x.min()` over a nonempty numpy array). -/
def listMinQ : List ℚ → ℚ
  | [] => 0
  | x :: xs => xs.foldl min x

/-- Maximum of a list (`x.max()` over a nonempty numpy array). -/
def listMaxQ : List ℚ → ℚ
  | [] => 0
  | x :: xs => xs.foldl max x

/-- Modelled from the spec: `tt.helpers.get_cluster_data_outline` is
not under src/. Per §4.1 the outline is "a per-dimension (min,max)
... computed from `Y` across the ensemble"; this is its `min` entry
for dimension `d` (`outline[d*2+0]` in `_outline2vectors`). -/
def outlineMin (cd : ClusterData) (d : ℕ) : ℚ :=
  listMinQ ((cd.map (fun t => dimCol t.2 d)).flatten)

/-- Modelled from the spec: the `max` entry of the per-dimension
outline (`outline[d*2+1]` in `_outline2vectors`). -/
def outlineMax (cd : ClusterData) (d : ℕ) : ℚ :=
  listMaxQ ((cd.map (fun t => dimCol t.2 d)).flatten)

/-- Modelled from the spec: the forward direction of the "separate,
independently invertible transform" of §4.1
(`tt.helpers.get_cluster_data_norm`, not under src/): each
observation row is rescaled per dimension by the outline,
`(v - min_d) / (max_d - min_d)`; `k` is the dimension of the first
entry of the remaining row. -/
def normRowAux (cd : ClusterData) : ℕ → List ℚ → List ℚ
  | _, [] => []
  | k, v :: vs =>
      (v - outlineMin cd k) / (outlineMax cd k - outlineMin cd k) :: normRowAux cd (k+1) vs

/-- Modelled from the spec: `tt.helpers.get_cluster_data_norm`
applied to the whole ensemble -- `x` untouched, `Y` rescaled
per dimension into [0,1] by the ensemble-wide outline.  This is the
`cluster_data_norm` stored by `GaussianProcess.__init__`. -/
def normCD (cd : ClusterData) : ClusterData :=
  cd.map (fun t => (t.1, t.2.map (fun row => normRowAux cd 0 row)))

/-- `numpy.interp`: piecewise-linear interpolation against the knots
`xs` with values `ys`, clamped to the end values outside the knot
range. -/
def np_interp (x : ℚ) : List ℚ → List ℚ → ℚ
  | x0 :: x1 :: xr, y0 :: y1 :: yr =>
      if x ≤ x0 then y0
      else if x ≤ x1 then y0 + (y1 - y0) * (x - x0) / (x1 - x0)
      else np_interp x (x1 :: xr) (y1 :: yr)
  | _ :: [], y0 :: _ => y0
  | _, _ => 0

/-- `xp = np.linspace(0, 1, ngaus)` (line 84): the `ngaus` evenly
spaced control positions `j / (ngaus - 1)`. -/
def xp_lin (ngaus : ℕ) : List ℚ :=
  (List.range ngaus).map (fun (j : ℕ) => (j : ℚ) / ((ngaus : ℚ) - 1))

/-- Lines 88-99: one trajectory resampled at the control positions by
per-dimension `np.interp` against the trajectory's own `x`, flattened
into a single column in Fortran order (`np.reshape(yp, (-1,1),
order='F')`): flat index `i` holds control point `i % ngaus` of
dimension `i / ngaus`. -/
def resampledVec (ngaus : ℕ) (t : List ℚ × List (List ℚ)) : ℕ → ℚ :=
  fun i => np_interp ((xp_lin ngaus).getD (i % ngaus) 0) t.1 (dimCol t.2 (i / ngaus))

/-- Sum over `Finset.range n` (matrix sums below). -/
def vsum (n : ℕ) (f : ℕ → ℚ) : ℚ := ∑ i ∈ Finset.range n, f i

/-- `N x N` matrix product restricted to the first `N` indices
(matrices are total functions on `ℕ`; entries beyond the intended
shape are irrelevant). -/
def mmulN (N : ℕ) (A B : ℕ → ℕ → ℚ) : ℕ → ℕ → ℚ :=
  fun i j => vsum N (fun k => A i k * B k j)

/-- `np.diagflat` of the entrywise square of a vector
(`np.diagflat(D ** 2)`, line 64). -/
def diagflatSq (D : ℕ → ℚ) : ℕ → ℕ → ℚ :=
  fun i j => if i = j then D i ^ 2 else 0

/-- Lines 102-110: `mu_y`, the mean of the resampled columns over the
(normalized) ensemble. -/
def resampling_mu_norm (cd : ClusterData) (ngaus : ℕ) : ℕ → ℚ :=
  fun i => ((normCD cd).map (fun t => resampledVec ngaus t i)).sum / (cd.length : ℚ)

/-- Lines 112-118: `sig_y`, the population covariance
`sum((yn - mu)(yn - mu)^T) / ntraj` of the resampled columns;
entry `(i,j)` of `(yn - mu) @ (yn - mu).T` is the product of the
`i`-th and `j`-th deviations. -/
def resampling_sig_norm (cd : ClusterData) (ngaus : ℕ) : ℕ → ℕ → ℚ :=
  fun i j =>
    ((normCD cd).map (fun t =>
      (resampledVec ngaus t i - resampling_mu_norm cd ngaus i) *
      (resampledVec ngaus t j - resampling_mu_norm cd ngaus j))).sum / (cd.length : ℚ)

/-- `_outline2vectors` (lines 39-55), `M` entry: block `d` of length
`ngaus` holds `outline` minimum of dimension `d`, so flat index `i`
belongs to dimension `i / ngaus`. -/
def outlineMvec (cd : ClusterData) (ngaus : ℕ) : ℕ → ℚ :=
  fun i => outlineMin cd (i / ngaus)

/-- `_outline2vectors`, `D` entry: per-dimension difference
`xmax - xmin` repeated `ngaus` times. -/
def outlineDvec (cd : ClusterData) (ngaus : ℕ) : ℕ → ℚ :=
  fun i => outlineMax cd (i / ngaus) - outlineMin cd (i / ngaus)

/-- `_norm2real` on the mean (line 66): `mu_y * D + M`, elementwise. -/
def norm2real_mu (cd : ClusterData) (ngaus : ℕ) (mu : ℕ → ℚ) : ℕ → ℚ :=
  fun i => mu i * outlineDvec cd ngaus i + outlineMvec cd ngaus i

/-- `_norm2real` on the covariance (line 67):
`sig_y @ np.diagflat(D ** 2)` -- a one-sided product with the
diagonal matrix of squared ranges, over the `N = ngaus*ndim` flat
indices. -/
def norm2real_sig (cd : ClusterData) (ngaus N : ℕ) (sig : ℕ → ℕ → ℚ) : ℕ → ℕ → ℚ :=
  mmulN N sig (diagflatSq (outlineDvec cd ngaus))

/-- `model_by_resampling` (lines 77-126), mean output: resample the
normalized ensemble, average, convert back to physical units. -/
def model_by_resampling_mu (cd : ClusterData) (ngaus : ℕ) : ℕ → ℚ :=
  norm2real_mu cd ngaus (resampling_mu_norm cd ngaus)

/-- `model_by_resampling`, covariance output. -/
def model_by_resampling_sig (cd : ClusterData) (ngaus ndim : ℕ) : ℕ → ℕ → ℚ :=
  norm2real_sig cd ngaus (ngaus * ndim) (resampling_sig_norm cd ngaus)

/-- Matrix transpose (`Hp.T`). -/
def transposeF (A : ℕ → ℕ → ℚ) : ℕ → ℕ → ℚ := fun i j => A j i

/-- A 2-D, 2-trajectory ensemble whose per-dimension ranges differ
(dimension 0 spans [0,1], dimension 1 spans [0,2]) and whose
resampled deviations couple the two dimensions. -/
def asymCD : ClusterData := [([0,1], [[0,0],[1,2]]), ([0,1], [[1,2],[0,0]])]

/-- The resampling estimator's mean exactly as §4.2 of the spec words
it (the refinement-comparison definition): "`mu` = population mean of
resampled vectors", the vectors being each trajectory's `Y` resampled
at the `ngaus` control positions by per-dimension linear
interpolation against that trajectory's own `x`. -/
def spec_resampling_mu (cd : ClusterData) (ngaus : ℕ) : ℕ → ℚ :=
  fun i => (cd.map (fun t => resampledVec ngaus t i)).sum / (cd.length : ℚ)

/-- The resampling estimator's covariance exactly as §4.2 of the spec
words it: "`Sigma` = population covariance (divide by trajectory
count, not count-1)" of the resampled vectors. -/
def spec_resampling_Sigma (cd : ClusterData) (ngaus : ℕ) : ℕ → ℕ → ℚ :=
  fun i j => (cd.map (fun t =>
    (resampledVec ngaus t i - spec_resampling_mu cd ngaus i) *
    (resampledVec ngaus t j - spec_resampling_mu cd ngaus j))).sum / (cd.length : ℚ)

/-- A 1-D ensemble: with a single dimension all entries of `D`
agree, so the physical-space covariance stays symmetric. -/
def oneDimCD : ClusterData := [([0,1], [[0],[1]]), ([0,1], [[1],[0]])]

/-! ## Cell decomposition (gaussianprocess.py lines 523-565; the same
code appears verbatim in model.py lines 606-648) -/

/-- A Cell: per-control-point mean and covariance, as total functions
(the first `ndim` indices are meaningful). -/
abbrev CellQ := (ℕ → ℚ) × (ℕ → ℕ → ℚ)

/-- The shared flattening convention, mean part: flat index `i` holds
control point `i % ngaus` of dimension `i / ngaus` (the inverse of
`mu_y[(npoint+d_row*ngaus), 0]`). -/
def flatten_mu (ngaus : ℕ) (cells : ℕ → CellQ) : ℕ → ℚ :=
  fun i => (cells (i % ngaus)).1 (i / ngaus)

/-- The shared flattening convention, covariance part: entry `(i,j)`
with `i ≡ j (mod ngaus)` holds covariance entry
`(i / ngaus, j / ngaus)` of cell `i % ngaus`; entries coupling
different cells are zero. -/
def flatten_sig (ngaus : ℕ) (cells : ℕ → CellQ) : ℕ → ℕ → ℚ :=
  fun i j =>
    if i % ngaus = j % ngaus then (cells (i % ngaus)).2 (i / ngaus) (j / ngaus) else 0

/-- `_getMuSigma` (gaussianprocess.py lines 544-565): checks
`npoint < 0 or npoint >= ngaus` and raises
`ValueError("{npoint}, not in [0, {ngaus}]")`, else gathers cell
`npoint`'s mean from flat indices `npoint + d*ngaus` and its
covariance entry `(d1,d2)` from
`sig_y[npoint+d1*ngaus, npoint+d2*ngaus]`. -/
def getMuSigma (mu_y : ℕ → ℚ) (sig_y : ℕ → ℕ → ℚ) (npoint : ℤ) (ngaus : ℕ) :
    Except String CellQ :=
  if npoint < 0 ∨ (ngaus : ℤ) ≤ npoint then
    .error (toString npoint ++ ", not in [0, " ++ toString ngaus ++ "]")
  else
    .ok (fun d => mu_y (npoint.toNat + d * ngaus),
         fun d1 d2 => sig_y (npoint.toNat + d1 * ngaus) (npoint.toNat + d2 * ngaus))

/-- `_getGMMCells` (gaussianprocess.py lines 523-541): one cell per
`m in range(ngaus)`, each covariance repaired by
`tt.helpers.nearest_spd` (external; passed as `repair`). -/
def getGMMCells (repair : (ℕ → ℕ → ℚ) → (ℕ → ℕ → ℚ))
    (mu_y : ℕ → ℚ) (sig_y : ℕ → ℕ → ℚ) (ngaus : ℕ) :
    Except String (List CellQ) :=
  (List.range ngaus).mapM (fun (m : ℕ) => do
    let cA ← getMuSigma mu_y sig_y (m : ℤ) ngaus
    pure (cA.1, repair cA.2))

/-- Symmetric positive definite on the leading `ndim x ndim` block. -/
def IsSPD (ndim : ℕ) (A : ℕ → ℕ → ℚ) : Prop :=
  (∀ d1 d2, A d1 d2 = A d2 d1) ∧
  ∀ x : ℕ → ℚ, (∃ d, d < ndim ∧ x d ≠ 0) →
    0 < vsum ndim (fun d1 => x d1 * vsum ndim (fun d2 => A d1 d2 * x d2))

/-- The concrete cells of the round-trip witness: 1-D cells with
mean `m` and covariance `[m + 1]`. -/
def c8Cells : ℕ → CellQ := fun m => (fun _ => (m : ℚ), fun _ _ => (m : ℚ) + 1)

/-! ## The EM prior log-likelihood `_L_pw` (gaussianprocess.py lines 498-521) -/

/-- `np.trace` over the leading `K x K` block. -/
def traceN (K : ℕ) (A : ℕ → ℕ → ℚ) : ℚ := vsum K (fun i => A i i)

/-- Elementwise (Hadamard) product: the source computes
`sig_w_inv*(...)` with `*` on ndarrays, which multiplies
elementwise. -/
def hadamard (A B : ℕ → ℕ → ℚ) : ℕ → ℕ → ℚ := fun i j => A i j * B i j

/-- `_L_pw` (gaussianprocess.py lines 498-521).  The conditioning
test `if cond(sig_w) > 0: return 1e4` comes first; its scrutinee, the
`numpy.linalg.cond` value of `sig_w` (the ratio of extreme singular
values, an irrational external computation), is the parameter
`condSigw`.  The determinant branch needs `np.log(2*np.pi)` and
`np.log(det(sig_w))`, transcendental values passed as `log2pi` and
`logDetSigw`; `K = nbasis*ndim` is the size of the weight space. -/
def L_pw (condSigw log2pi logDetSigw : ℚ) (K : ℕ)
    (Ewc : List (ℕ → ℚ)) (Ewwc : List (ℕ → ℕ → ℚ)) (mu_w : ℕ → ℚ)
    (sig_w_inv : ℕ → ℕ → ℚ) (ndim nbasis : ℕ) : ℚ :=
  if 0 < condSigw then 10000
  else
    let ntraj := Ewc.length
    let s := ((List.range ntraj).map (fun (n : ℕ) =>
      traceN K (hadamard sig_w_inv
        (fun i j => (Ewwc.getD n (fun _ _ => 0)) i j
            - 2 * (mu_w i * (Ewc.getD n (fun _ => 0)) j) + mu_w i * mu_w j)))).sum
    ((ntraj : ℚ) * (nbasis : ℚ) * (ndim : ℚ) / 2) * log2pi
      + ((ntraj : ℚ) / 2) * logDetSigw + (1/2) * s

/-! ## The spatial query layer (model.py lines 267-561) -/

/-- 2-D grid of rationals (an `np.mgrid` output slice). -/
abbrev G2 := List (List ℚ)

/-- 3-D grid of rationals. -/
abbrev G3 := List (List (List ℚ))

/-- `xx.shape` of a (rectangular) 2-D array. -/
def shape2 {α : Type} (A : List (List α)) : ℕ × ℕ :=
  (A.length, (A.headD []).length)

/-- `xx.shape` of a (rectangular) 3-D array. -/
def shape3 {α : Type} (A : List (List (List α))) : ℕ × ℕ × ℕ :=
  (A.length, (A.headD []).length, ((A.headD []).headD []).length)

def get2 {α : Type} (A : List (List α)) (i j : ℕ) (dflt : α) : α :=
  (A.getD i []).getD j dflt

def get3 {α : Type} (A : List (List (List α))) (i j k : ℕ) (dflt : α) : α :=
  ((A.getD i []).getD j []).getD k dflt

/-- Two dimensions broadcast when equal or one of them is 1. -/
def bcastOK (a b : ℕ) : Bool := a == b || a == 1 || b == 1

/-- Index into a broadcast dimension: a size-1 axis is repeated. -/
def bidx (dim i : ℕ) : ℕ := if dim = 1 then 0 else i

/-- `np.all(A == B)` on 2-D float arrays: elementwise comparison with
numpy broadcasting; non-broadcastable shapes yield the scalar `False`
(the source predates numpy raising here). -/
def npAllEq2 (A B : List (List ℚ)) : Bool :=
  let r1 := A.length; let c1 := (A.headD []).length
  let r2 := B.length; let c2 := (B.headD []).length
  if bcastOK r1 r2 && bcastOK c1 c2 then
    (List.range (max r1 r2)).all (fun i =>
      (List.range (max c1 c2)).all (fun j =>
        decide (get2 A (bidx r1 i) (bidx c1 j) 0 = get2 B (bidx r2 i) (bidx c2 j) 0)))
  else false

/-- `np.all(A == B)` on 3-D float arrays. -/
def npAllEq3 (A B : List (List (List ℚ))) : Bool :=
  let d1 := A.length; let r1 := (A.headD []).length
  let c1 := ((A.headD []).headD []).length
  let d2 := B.length; let r2 := (B.headD []).length
  let c2 := ((B.headD []).headD []).length
  if bcastOK d1 d2 && bcastOK r1 r2 && bcastOK c1 c2 then
    (List.range (max d1 d2)).all (fun i =>
      (List.range (max r1 r2)).all (fun j =>
        (List.range (max c1 c2)).all (fun k =>
          decide (get3 A (bidx d1 i) (bidx r1 j) (bidx c1 k) 0
                = get3 B (bidx d2 i) (bidx r2 j) (bidx c2 k) 0))))
  else false

/-- `np.all(zz1 == zz)` where either side may be `None`:
`None == None` is `True` in Python; `None` against an array compares
`False`. -/
def npAllEqOpt3 : Option G3 → Option G3 → Bool
  | none, none => true
  | some a, some b => npAllEq3 a b
  | _, _ => false

/-- `_grid2points` (model.py lines 319-365), 2-D branch: `nx =
np.size(xx, 0)`, `ny = np.size(yy, 1)`, and point `(ix, iy)` reads
`xx[ix, 0]` and `yy[0, iy]`; the flat point list is paired with the
index list for reassembly. -/
def grid2points2 (xx yy : G2) : List ((ℚ × ℚ) × (ℕ × ℕ)) :=
  let nx := xx.length
  let ny := (yy.headD []).length
  ((List.range nx).map (fun ix =>
    (List.range ny).map (fun iy =>
      ((get2 xx ix 0 0, get2 yy 0 iy 0), (ix, iy))))).flatten

/-- `_grid2points`, 3-D branch: `nz = np.size(zz, 2)`, point
`(ix, iy, iz)` reads `xx[ix,0,0]`, `yy[0,iy,0]`, `zz[0,0,iz]`. -/
def grid2points3 (xx yy zz : G3) : List ((ℚ × ℚ × ℚ) × (ℕ × ℕ × ℕ)) :=
  let nx := xx.length
  let ny := (yy.headD []).length
  let nz := ((zz.headD []).headD []).length
  (((List.range nx).map (fun ix =>
    (List.range ny).map (fun iy =>
      (List.range nz).map (fun iz =>
        ((get3 xx ix 0 0 0, get3 yy 0 iy 0 0, get3 zz 0 0 iz 0),
         (ix, iy, iz)))))).map List.flatten).flatten

def set2 {α : Type} (g : List (List α)) (i j : ℕ) (v : α) : List (List α) :=
  g.set i ((g.getD i []).set j v)

def set3 {α : Type} (g : List (List (List α))) (i j k : ℕ) (v : α) :
    List (List (List α)) :=
  g.set i (set2 (g.getD i []) j k v)

/-- `_points2grid` (model.py lines 367-396), 2-D: the result shape is
`np.max(Y_idx, axis=0) + 1`, a zero-filled array is allocated, and
`ss[ix, iy] = s[i]` for every enumerated index pair. -/
def points2grid2 {α : Type} (zero : α) (s : List α) (idx : List (ℕ × ℕ)) :
    List (List α) :=
  let rdim := (idx.map Prod.fst).foldr max 0 + 1
  let cdim := (idx.map Prod.snd).foldr max 0 + 1
  (idx.enum).foldl
    (fun g p => set2 g p.2.1 p.2.2 (s.getD p.1 zero))
    (List.replicate rdim (List.replicate cdim zero))

/-- `_points2grid`, 3-D. -/
def points2grid3 {α : Type} (zero : α) (s : List α) (idx : List (ℕ × ℕ × ℕ)) :
    List (List (List α)) :=
  let ddim := (idx.map (fun p => p.1)).foldr max 0 + 1
  let rdim := (idx.map (fun p => p.2.1)).foldr max 0 + 1
  let cdim := (idx.map (fun p => p.2.2)).foldr max 0 + 1
  (idx.enum).foldl
    (fun g p => set3 g p.2.1 p.2.2.1 p.2.2.2 (s.getD p.1 zero))
    (List.replicate ddim (List.replicate rdim (List.replicate cdim zero)))

/-- `np.nanmin`: minimum over the non-NaN values; all-NaN gives
`NaN`.  An infinite value is not excluded, so the result may be
`-inf`. -/
def nanminEF (l : List EF) : EF :=
  match l.filter (fun v => !v.isNan) with
  | [] => EF.nan
  | x :: xs => xs.foldl EF.emin x

/-- The NaN-replacement step of `Model.evalLogLikelihood` (line 556):
`ss[np.isnan(ss)] = np.nanmin(ss)` -- only NaN entries are replaced,
by the minimum over the non-NaN entries of the whole grid. -/
def replaceNan2 (ss : List (List EF)) : List (List EF) :=
  let m := nanminEF ss.flatten
  ss.map (fun row => row.map (fun v => if v.isNan then m else v))

/-- A `_list_logp` cache entry of the 2-D model: `[ss, xx, yy, zz]`
(model.py line 559); `zz` is `None` on 2-D queries. -/
structure LogpEntry2 where
  ss : List (List EF)
  xx : G2
  yy : G2
  zz : Option G3

/-- `Model.evalLogLikelihood` (model.py lines 521-561) for a 2-D
model.  `evalO` stands for the per-point dispatch to
`tt.helpers.gauss_logLc` (external).  The cache scan keeps the last
matching entry (`ss = ss1` inside the loop); on a miss the grid is
converted to points, evaluated, reassembled, NaN-repaired in place,
and a new entry is appended. -/
def evalLogLikelihood2 (evalO : ℚ → ℚ → EF) (cache : List LogpEntry2)
    (xx yy : G2) (zz : Option G3) :
    Except String (List (List EF) × List LogpEntry2) :=
  if shape2 xx ≠ shape2 yy then
    .error "dimensions should equal (use np.mgrid)"
  else
    let hit := cache.foldl (fun acc e =>
      if npAllEq2 e.xx xx && npAllEq2 e.yy yy && npAllEqOpt3 e.zz zz then
        some e.ss
      else acc) none
    match hit with
    | some ss => .ok (ss, cache)
    | none =>
        let pts := grid2points2 xx yy
        let s := pts.map (fun p => evalO p.1.1 p.1.2)
        let ss0 := points2grid2 (EF.fin 0) s (pts.map (fun p => p.2))
        let ss := replaceNan2 ss0
        .ok (ss, cache ++ [⟨ss, xx, yy, zz⟩])

/-- A `_list_logp` cache entry of a 3-D model. -/
structure LogpEntry3 where
  ss : List (List (List EF))
  xx : G3
  yy : G3
  zz : G3

/-- The 3-D NaN-replacement. -/
def replaceNan3 (ss : List (List (List EF))) : List (List (List EF)) :=
  let m := nanminEF (ss.map List.flatten).flatten
  ss.map (fun pl => pl.map (fun row => row.map (fun v => if v.isNan then m else v)))

/-- `Model.evalLogLikelihood` for a 3-D model: the only validation is
still `xx.shape == yy.shape`; `zz` is never checked. -/
def evalLogLikelihood3 (evalO : ℚ → ℚ → ℚ → EF) (cache : List LogpEntry3)
    (xx yy zz : G3) :
    Except String (List (List (List EF)) × List LogpEntry3) :=
  if shape3 xx ≠ shape3 yy then
    .error "dimensions should equal (use np.mgrid)"
  else
    let hit := cache.foldl (fun acc e =>
      if npAllEq3 e.xx xx && npAllEq3 e.yy yy && npAllEq3 e.zz zz then
        some e.ss
      else acc) none
    match hit with
    | some ss => .ok (ss, cache)
    | none =>
        let pts := grid2points3 xx yy zz
        let s := pts.map (fun p => evalO p.1.1 p.1.2.1 p.1.2.2)
        let ss0 := points2grid3 (EF.fin 0) s (pts.map (fun p => p.2))
        let ss := replaceNan3 ss0
        .ok (ss, cache ++ [⟨ss, xx, yy, zz⟩])

/-- Booleans assigned into the float grid allocated by
`_points2grid` become 0.0 / 1.0. -/
def boolToEF (b : Bool) : EF := EF.fin (if b then 1 else 0)

/-- A `_list_tube` cache entry: `[ss, sdwidth, xx, yy, zz]`
(model.py line 439). -/
structure TubeEntry2 where
  ss : List (List EF)
  sdwidth : ℚ
  xx : G2
  yy : G2
  zz : Option G3

/-- `Model.isInside_grid` (model.py lines 398-443) for a 2-D model;
`pnts` stands for `self.isInside_pnts` applied to the converted point
list.  Validation compares only `xx.shape` with `yy.shape`. -/
def isInside_grid2 (pnts : List (ℚ × ℚ) → Except String (List Bool))
    (cache : List TubeEntry2) (sdwidth : ℚ) (xx yy : G2) (zz : Option G3) :
    Except String (List (List EF) × List TubeEntry2) :=
  if shape2 xx ≠ shape2 yy then
    .error "dimensions should equal (use np.mgrid)"
  else
    let hit := cache.foldl (fun acc e =>
      if npAllEq2 e.xx xx && npAllEq2 e.yy yy && npAllEqOpt3 e.zz zz
          && decide (e.sdwidth = sdwidth) then
        some e.ss
      else acc) none
    match hit with
    | some ss => .ok (ss, cache)
    | none => do
        let pts := grid2points2 xx yy
        let s ← pnts (pts.map (fun p => p.1))
        let ss := points2grid2 (EF.fin 0) (s.map boolToEF) (pts.map (fun p => p.2))
        .ok (ss, cache ++ [⟨ss, sdwidth, xx, yy, zz⟩])

/-- A `_list_tube` cache entry of a 3-D model. -/
structure TubeEntry3 where
  ss : List (List (List EF))
  sdwidth : ℚ
  xx : G3
  yy : G3
  zz : G3

/-- A boolean numpy array of dimension 0, 1 or 2, as produced by
`np.array(list_these_inside)` and its `squeeze`. -/
inductive BArr where
  | d0 (b : Bool)
  | d1 (v : List Bool)
  | d2 (m : List (List Bool))

/-- `np.squeeze`: axes of size 1 are removed. -/
def npSqueeze : BArr → BArr
  | .d2 m =>
      if m.length = 1 ∧ (m.headD []).length = 1 then .d0 ((m.headD []).headD false)
      else if m.length = 1 then .d1 (m.headD [])
      else if (m.headD []).length = 1 then .d1 (m.map (fun row => row.headD false))
      else .d2 m
  | .d1 v => if v.length = 1 then .d0 (v.headD false) else .d1 v
  | a => a

def transpose2B (m : List (List Bool)) : List (List Bool) :=
  (List.range ((m.headD []).length)).map (fun j => m.map (fun row => row.getD j false))

/-- `.transpose()`: swaps the two axes of a 2-D array; on 0-D and 1-D
arrays it is the identity. -/
def npTransposeB : BArr → BArr
  | .d2 m => .d2 (transpose2B m)
  | a => a

/-- `np.any(arr, axis=1)`: reduces axis 1 with logical OR; on an
array of dimension 0 or 1 numpy raises an `AxisError`. -/
def npAnyAxis1 : BArr → Except String (List Bool)
  | .d2 m => .ok (m.map (fun row => row.any id))
  | .d1 _ => .error "AxisError: axis 1 is out of bounds for array of dimension 1"
  | .d0 _ => .error "AxisError: axis 1 is out of bounds for array of dimension 0"

/-- The tail of `Model.isInside_pnts` (model.py lines 445-480):
`np.any(np.array(list_these_inside).squeeze().transpose(), axis=1)`,
where `list_these_inside` holds one boolean array per transition
cloud (the external `tt.helpers.in_hull` result: one boolean per
query point). -/
def isInside_pnts_embed (listTheseInside : List (List Bool)) :
    Except String (List Bool) :=
  npAnyAxis1 (npTransposeB (npSqueeze (.d2 listTheseInside)))

/-- `_get_point_cloud` (model.py lines 483-518) builds its transition
clouds with `for i in range(ngaus-1)`: one per adjacent cell pair. -/
def numTransitionClouds (ngaus : ℕ) : ℕ := ngaus - 1

/-- `Model.isInside_grid` for a 3-D model: the only validation is
still `xx.shape == yy.shape`; `zz` is never checked. -/
def isInside_grid3 (pnts : List (ℚ × ℚ × ℚ) → Except String (List Bool))
    (cache : List TubeEntry3) (sdwidth : ℚ) (xx yy zz : G3) :
    Except String (List (List (List EF)) × List TubeEntry3) :=
  if shape3 xx ≠ shape3 yy then
    .error "dimensions should equal (use np.mgrid)"
  else
    let hit := cache.foldl (fun acc e =>
      if npAllEq3 e.xx xx && npAllEq3 e.yy yy && npAllEq3 e.zz zz
          && decide (e.sdwidth = sdwidth) then
        some e.ss
      else acc) none
    match hit with
    | some ss => .ok (ss, cache)
    | none => do
        let pts := grid2points3 xx yy zz
        let s ← pnts (pts.map (fun p => p.1))
        let ss := points2grid3 (EF.fin 0) (s.map boolToEF) (pts.map (fun p => p.2))
        .ok (ss, cache ++ [⟨ss, sdwidth, xx, yy, zz⟩])

/-! ## Model construction (model.py lines 24-93) -/

/-- A Python value as the settings validation observes it: a string,
an int, or anything else. -/
inductive PyVal where
  | pystr (s : String)
  | pyint (n : ℤ)
  | pyother
deriving DecidableEq

/-- The `settings` dictionary restricted to the keys `Model.__init__`
reads; a missing key is `none`. -/
structure PySettings where
  model_type : Option PyVal
  ngaus : Option PyVal
  basis_type : Option PyVal
  nbasis : Option PyVal

/-- A Python object as it appears inside an estimator's returned
tuple: the mean vector, the covariance matrix, or one of the two cell
lists. -/
inductive PyObj where
  | ofVec (v : List ℚ)
  | ofMat (m : List (List ℚ))
  | ofCellMeans (c : List (List ℚ))
  | ofCellCovs (c : List (List (List ℚ)))
deriving DecidableEq

/-- The value built by `return (mu_y, sig_y, cc, cA)` -- the return
statement of all three estimators (gaussianprocess.py lines 126, 184
and 298): a Python 4-tuple.  The numeric payloads are parameters
here; their computation is embedded separately
(`model_by_resampling_mu`/`_sig`, `emLoop`, ...) and does not affect
the tuple's arity. -/
def estimator_return_tuple (mu_y : List ℚ) (sig_y : List (List ℚ))
    (cc : List (List ℚ)) (cA : List (List (List ℚ))) : List PyObj :=
  [.ofVec mu_y, .ofMat sig_y, .ofCellMeans cc, .ofCellCovs cA]

/-- Python tuple unpacking `(mu_y, sig_y) = t`: succeeds only on a
2-tuple, otherwise raises a `ValueError`. -/
def unpack2 (t : List PyObj) : Except String (PyObj × PyObj) :=
  match t with
  | [a, b] => .ok (a, b)
  | _ :: _ :: _ :: _ => .error "ValueError: too many values to unpack (expected 2)"
  | _ => .error "ValueError: not enough values to unpack (expected 2)"

/-- The attributes bound by the estimator-call statements of
`Model.__init__` (lines 70-77); the rest of the constructor (cell
decomposition, cache initialization) runs only after these bindings
succeed and is embedded separately (`getGMMCells`). -/
structure ModelT where
  mu_y : PyObj
  sig_y : PyObj

/-- The estimator dispatch of `Model.__init__` (model.py lines
70-79): string comparison on `model_type`, tuple-unpacking assignment
`(mu_y, sig_y) = gp.model_by_*(...)`, unknown types raise
`NotImplementedError`. -/
def Model_dispatch (mt : String)
    (resampling_result ml_result em_result : List PyObj) :
    Except String ModelT :=
  if mt = "resampling" then do
    let ab ← unpack2 resampling_result
    pure ⟨ab.1, ab.2⟩
  else if mt = "ML" then do
    let ab ← unpack2 ml_result
    pure ⟨ab.1, ab.2⟩
  else if mt = "EM" then do
    let ab ← unpack2 em_result
    pure ⟨ab.1, ab.2⟩
  else .error ("NotImplementedError: " ++ mt ++ " not available")

/-- `Model.__init__` (model.py lines 24-93): the settings validation
(lines 36-57) followed by the estimator dispatch.  The three
`*_result` parameters are the tuples returned by the corresponding
`GaussianProcess` methods. -/
def Model_init (s : PySettings)
    (resampling_result ml_result em_result : List PyObj) :
    Except String ModelT :=
  match s.model_type with
  | none => .error "ValueError: settings has no model_type"
  | some (.pystr mt) =>
      (match s.ngaus with
       | none => .error "ValueError: settings has no ngaus"
       | some (.pyint _) =>
           if mt = "ML" ∨ mt = "EM" then
             match s.basis_type with
             | none => .error "ValueError: settings has no basis_type"
             | some _ =>
               match s.nbasis with
               | none => .error "ValueError: settings has no nbasis"
               | some (.pyint nb) =>
                   if nb < 2 then .error "ValueError: nbasis should be larger than 2"
                   else Model_dispatch mt resampling_result ml_result em_result
               | some _ => Model_dispatch mt resampling_result ml_result em_result
           else Model_dispatch mt resampling_result ml_result em_result
       | some _ => .error "TypeError: expected int")
  | some _ => .error "TypeError: expected string"

/-- A settings dictionary the spec calls valid: a known `model_type`
string, an integer `ngaus >= 2`, and for the basis-based estimators a
`basis_type` plus an integer `nbasis >= 2`. -/
def validSettings (s : PySettings) : Prop :=
  ∃ mt ng, s.model_type = some (.pystr mt)
    ∧ (mt = "resampling" ∨ mt = "ML" ∨ mt = "EM")
    ∧ s.ngaus = some (.pyint ng) ∧ 2 ≤ ng
    ∧ ((mt = "ML" ∨ mt = "EM") →
        (∃ bt, s.basis_type = some bt)
        ∧ ∃ nb, s.nbasis = some (.pyint nb) ∧ 2 ≤ nb)

/-! ### Theorems -/

theorem emLoop_zero {σ : Type} (step : σ → σ) (lik : σ → EF) (s : σ) (prev : EF) :
    emLoop step lik 0 s prev = (s, 0) := rfl

theorem emLoop_succ {σ : Type} (step : σ → σ) (lik : σ → EF) (n : ℕ) (s : σ) (prev : EF) :
    emLoop step lik (n+1) s prev =
      (if (lik (step s)).isFinite then
        if (((lik (step s)).sub prev).eabs.blt (.fin CONV_LIKELIHOOD)) then (step s, 1)
        else ((emLoop step lik n (step s) (lik (step s))).1,
              (emLoop step lik n (step s) (lik (step s))).2 + 1)
      else (step s, 1)) := rfl

theorem emLoop_conv {σ : Type} (step : σ → σ) (lik : σ → EF) (n : ℕ) (s : σ) (prev : EF)
    (h1 : (lik (step s)).isFinite = true)
    (h2 : (((lik (step s)).sub prev).eabs.blt (.fin CONV_LIKELIHOOD)) = true) :
    emLoop step lik (n+1) s prev = (step s, 1) := by
  rw [emLoop_succ]
  simp [h1, h2]

theorem emLoop_abort {σ : Type} (step : σ → σ) (lik : σ → EF) (n : ℕ) (s : σ) (prev : EF)
    (h1 : (lik (step s)).isFinite = false) :
    emLoop step lik (n+1) s prev = (step s, 1) := by
  rw [emLoop_succ]
  simp [h1]

theorem emLoop_continue {σ : Type} (step : σ → σ) (lik : σ → EF) (n : ℕ) (s : σ) (prev : EF)
    (h1 : (lik (step s)).isFinite = true)
    (h2 : (((lik (step s)).sub prev).eabs.blt (.fin CONV_LIKELIHOOD)) = false) :
    (emLoop step lik (n+1) s prev).1 = (emLoop step lik n (step s) (lik (step s))).1 := by
  rw [emLoop_succ]
  simp [h1, h2]

theorem emLoop_iter_le {σ : Type} (step : σ → σ) (lik : σ → EF) :
    ∀ (n : ℕ) (s : σ) (prev : EF), (emLoop step lik n s prev).2 ≤ n := by
  intro n
  induction n with
  | zero => intro s prev; simp [emLoop]
  | succ n ih =>
      intro s prev
      rw [emLoop_succ]
      by_cases h1 : (lik (step s)).isFinite
      · by_cases h2 : (((lik (step s)).sub prev).eabs.blt (.fin CONV_LIKELIHOOD))
        · simp [h1, h2]
        · simp only [h1, h2, if_true, if_false, Bool.false_eq_true]
          exact Nat.succ_le_succ (ih (step s) (lik (step s)))
      · simp [h1]

/-- If the absolute difference of two extended values is finite, both
are finite: the convergence test `loglikelihood_diff < 1e-3` can only
succeed when the current log-likelihood (and the previous one) is
finite, so guarding it by `np.isfinite(loglikelihood_pY)` loses
nothing. -/
theorem EF_abs_sub_finite (L prev : EF) :
    ((L.sub prev).eabs).isFinite = true → L.isFinite = true ∧ prev.isFinite = true := by
  cases L <;> cases prev <;> simp [EF.sub, EF.eabs, EF.isFinite]

/-- C4 (amended): the EM loop always terminates: it executes at most
`maximum_iterations` iterations (default `emMaxIterationsDefault =
2001`); it stops at the first iteration whose log-likelihood is
finite with absolute change below `CONV_LIKELIHOOD = 1e-3`; and if
the log-likelihood becomes non-finite it aborts immediately --
returning the state updated in the aborting iteration (the
parameters that produced the non-finite log-likelihood), not a
rolled-back last-finite state. -/
theorem c4_em_loop_spec {σ : Type} (step : σ → σ) (lik : σ → EF)
    (n : ℕ) (s : σ) (prev : EF) :
    ((emLoop step lik emMaxIterationsDefault s prev).2 ≤ emMaxIterationsDefault)
    ∧ ((emLoop step lik n s prev).2 ≤ n)
    ∧ ((lik (step s)).isFinite = true →
        (((lik (step s)).sub prev).eabs.blt (.fin CONV_LIKELIHOOD)) = true →
        emLoop step lik (n+1) s prev = (step s, 1))
    ∧ ((lik (step s)).isFinite = false →
        emLoop step lik (n+1) s prev = (step s, 1)) := by
  exact ⟨emLoop_iter_le step lik _ s prev, emLoop_iter_le step lik n s prev,
    fun h1 h2 => emLoop_conv step lik n s prev h1 h2,
    fun h1 => emLoop_abort step lik n s prev h1⟩

/-- Witness for `c4_em_loop_spec`: a concrete loop over state `ℕ`
whose first updated state has log-likelihood `0`, converged at once
(previous value `0`, change `0 < 1e-3`). -/
theorem c4_em_loop_spec_witness :
    emLoop Nat.succ (fun _ => EF.fin 0) 1 0 (EF.fin 0) = (1, 1) := by
  exact (c4_em_loop_spec Nat.succ (fun _ => EF.fin 0) 0 0 (EF.fin 0)).2.2.1
    rfl (by norm_num [EF.sub, EF.eabs, EF.blt, CONV_LIKELIHOOD])

/-- C4 counterexample: with the likelihood `c4Lik`, iteration 1
produces state 1 (finite log-likelihood, change `|0 - inf|` not below
tolerance) and iteration 2 produces state 2 with a NaN
log-likelihood.  The loop aborts and returns state 2 -- the state
whose log-likelihood is non-finite -- while the last state with a
finite log-likelihood was state 1.  So the loop does not return "the
last finite state". -/
theorem c4_em_loop_counterexample :
    (emLoop Nat.succ c4Lik emMaxIterationsDefault 0 EF.pinf).1 = 2
    ∧ c4Lik 2 = EF.nan
    ∧ c4Lik 1 = EF.fin 0
    ∧ (2 : ℕ) ≠ 1 := by
  refine ⟨?_, rfl, rfl, by norm_num⟩
  have e1 : emMaxIterationsDefault = 2000 + 1 := by norm_num [emMaxIterationsDefault]
  have hf : (c4Lik (Nat.succ 0)).isFinite = true := rfl
  have hb : ((c4Lik (Nat.succ 0)).sub EF.pinf).eabs.blt (.fin CONV_LIKELIHOOD) = false := by
    simp [c4Lik, EF.sub, EF.eabs, EF.blt]
  rw [e1, emLoop_continue Nat.succ c4Lik 2000 0 EF.pinf hf hb]
  rw [show (2000 : ℕ) = 1999 + 1 from by norm_num]
  have hf2 : (c4Lik (Nat.succ (Nat.succ 0))).isFinite = false := rfl
  rw [emLoop_abort Nat.succ c4Lik 1999 (Nat.succ 0) (c4Lik (Nat.succ 0)) hf2]

theorem mmulN_diag (N : ℕ) (A : ℕ → ℕ → ℚ) (D : ℕ → ℚ) (i j : ℕ) (hj : j < N) :
    mmulN N A (diagflatSq D) i j = A i j * D j ^ 2 := by
  unfold mmulN vsum diagflatSq
  simp only [mul_ite, mul_zero]
  simp [Finset.sum_ite_eq', Finset.mem_range, hj]

/-- C2 counterexample: on `asymCD` with `ngaus = 2`, `ndim = 2`, the
covariance returned by `model_by_resampling` after conversion to
physical units has `Sigma[0,2] = 1` but `Sigma[2,0] = 1/4`: it is not
symmetric, because `_norm2real` multiplies by `diagflat(D**2)` on the
right only. -/
theorem c2_sigma_symmetric_counterexample :
    model_by_resampling_sig asymCD 2 2 0 2 = 1
    ∧ model_by_resampling_sig asymCD 2 2 2 0 = 1/4
    ∧ (1 : ℚ) ≠ 1/4 := by
  refine ⟨?_, ?_, by norm_num⟩ <;>
  norm_num [model_by_resampling_sig, norm2real_sig, mmulN, vsum, Finset.sum_range_succ,
    diagflatSq, outlineDvec, outlineMax, outlineMin, listMinQ, listMaxQ, dimCol,
    resampling_sig_norm, resampling_mu_norm, normCD, normRowAux, resampledVec,
    np_interp, xp_lin, asymCD, List.range_succ]

/-- C2 (amended): the estimation-space covariance is symmetric for
every ensemble -- (a) the resampling covariance
`sum((yn-mu)(yn-mu)^T)/ntraj` directly, and (b) the basis-regression
prediction `Hp @ sig_w @ Hp.T` whenever the weight covariance
`sig_w` is symmetric.  (c) The conversion back to physical units
(`sig_y @ diagflat(D**2)`) preserves symmetry only under the extra
assumption that all per-dimension ranges `D` agree on the matrix's
index range (e.g. in one dimension); `c2_sigma_symmetric_counterexample`
shows the returned covariance is otherwise not symmetric. -/
theorem c2_sigma_symmetry :
    (∀ (cd : ClusterData) (ngaus i j : ℕ),
      resampling_sig_norm cd ngaus i j = resampling_sig_norm cd ngaus j i)
    ∧ (∀ (K : ℕ) (H S : ℕ → ℕ → ℚ), (∀ k l, S k l = S l k) →
        ∀ i j, mmulN K (mmulN K H S) (transposeF H) i j
             = mmulN K (mmulN K H S) (transposeF H) j i)
    ∧ (∀ (cd : ClusterData) (ngaus N : ℕ) (sig : ℕ → ℕ → ℚ),
        (∀ i j, sig i j = sig j i) →
        (∀ i j, i < N → j < N → outlineDvec cd ngaus i = outlineDvec cd ngaus j) →
        ∀ i j, i < N → j < N →
          norm2real_sig cd ngaus N sig i j = norm2real_sig cd ngaus N sig j i) := by
  refine ⟨?_, ?_, ?_⟩
  · intro cd ngaus i j
    unfold resampling_sig_norm
    rw [List.map_congr_left (fun t _ => mul_comm
      (resampledVec ngaus t i - resampling_mu_norm cd ngaus i)
      (resampledVec ngaus t j - resampling_mu_norm cd ngaus j))]
  · intro K H S hS i j
    unfold mmulN vsum transposeF
    simp only [Finset.sum_mul]
    rw [Finset.sum_comm]
    refine Finset.sum_congr rfl (fun l _ => Finset.sum_congr rfl (fun k _ => ?_))
    rw [hS k l]
    ring
  · intro cd ngaus N sig hS hD i j hi hj
    unfold norm2real_sig
    rw [mmulN_diag N sig _ i j hj, mmulN_diag N sig _ j i hi,
      hS i j, hD j i hj hi]

theorem np_interp_affine (a b x : ℚ) :
    ∀ (xs ys : List ℚ), xs ≠ [] → xs.length = ys.length →
      np_interp x xs (ys.map (fun y => a * y + b)) = a * np_interp x xs ys + b := by
  intro xs
  induction xs with
  | nil => intro ys hne _; exact absurd rfl hne
  | cons x0 xs ih =>
      intro ys _ hlen
      cases ys with
      | nil => simp at hlen
      | cons y0 ys =>
          cases xs with
          | nil =>
              cases ys with
              | nil => simp [np_interp]
              | cons y1 yr => simp at hlen
          | cons x1 xr =>
              cases ys with
              | nil => simp at hlen
              | cons y1 yr =>
                  simp only [List.map_cons]
                  by_cases h0 : x ≤ x0
                  · simp [np_interp, h0]
                  · by_cases h1 : x ≤ x1
                    · simp only [np_interp, h0, h1, if_true, if_false]
                      ring
                    · simp only [np_interp, h0, h1, if_false]
                      have hlen2 : (x1 :: xr).length = (y1 :: yr).length := by
                        simpa using hlen
                      exact ih (y1 :: yr) (by simp) hlen2

/-- `np.interp` evaluated at the `i`-th knot of a strictly increasing
knot list returns the `i`-th value exactly. -/
theorem np_interp_nodes :
    ∀ (xs ys : List ℚ), List.Pairwise (· < ·) xs → xs.length = ys.length →
      ∀ i, i < xs.length → np_interp (xs.getD i 0) xs ys = ys.getD i 0 := by
  intro xs
  induction xs with
  | nil => intro ys _ _ i hi; simp at hi
  | cons x0 xs ih =>
      intro ys hp hlen i hi
      cases ys with
      | nil => simp at hlen
      | cons y0 ys =>
          cases i with
          | zero =>
              cases xs with
              | nil =>
                  cases ys with
                  | nil => simp [np_interp]
                  | cons y1 yr => simp at hlen
              | cons x1 xr =>
                  cases ys with
                  | nil => simp at hlen
                  | cons y1 yr => simp [np_interp]
          | succ j =>
              have hj : j < xs.length := by simpa using hi
              have hmem : xs.getD j 0 ∈ xs := by
                rw [List.getD_eq_getElem xs 0 hj]
                exact List.getElem_mem hj
              have hx0 : x0 < xs.getD j 0 :=
                (List.pairwise_cons.mp hp).1 _ hmem
              cases xs with
              | nil => simp at hj
              | cons x1 xr =>
                  cases ys with
                  | nil => simp at hlen
                  | cons y1 yr =>
                      have hlen2 : (x1 :: xr).length = (y1 :: yr).length := by
                        simpa using hlen
                      have hnle : ¬ ((x1 :: xr).getD j 0 ≤ x0) := not_le.mpr hx0
                      cases j with
                      | zero =>
                          have h01 : x0 < x1 := hx0
                          have hne : x1 - x0 ≠ 0 := sub_ne_zero.mpr (ne_of_gt h01)
                          simp only [List.getD_cons_succ, List.getD_cons_zero] at hnle ⊢
                          simp only [np_interp, hnle, if_false, le_refl, if_true]
                          rw [mul_div_assoc, div_self hne, mul_one]
                          ring
                      | succ k =>
                          have hk : k < xr.length := by simpa using hj
                          have hmem2 : xr.getD k 0 ∈ xr := by
                            rw [List.getD_eq_getElem xr 0 hk]
                            exact List.getElem_mem hk
                          have hx1 : x1 < xr.getD k 0 :=
                            (List.pairwise_cons.mp (List.pairwise_cons.mp hp).2).1 _ hmem2
                          simp only [List.getD_cons_succ] at hnle ⊢
                          simp only [np_interp, hnle, if_false, not_le.mpr hx1]
                          have := ih (y1 :: yr) (List.pairwise_cons.mp hp).2 hlen2 (k+1)
                            (by simpa using hj)
                          simpa using this

theorem xp_lin_length (n : ℕ) : (xp_lin n).length = n := by
  rw [xp_lin, List.length_map, List.length_range]

theorem xp_lin_getD (n j : ℕ) (hj : j < n) :
    (xp_lin n).getD j 0 = (j : ℚ) / ((n : ℚ) - 1) := by
  rw [xp_lin]
  have h2 : j < ((List.range n).map (fun (j : ℕ) => (j : ℚ) / ((n : ℚ) - 1))).length := by
    rw [List.length_map, List.length_range]; exact hj
  rw [List.getD_eq_getElem _ 0 h2, List.getElem_map, List.getElem_range]

theorem xp_lin_pairwise (n : ℕ) (h : 2 ≤ n) :
    List.Pairwise (· < ·) (xp_lin n) := by
  rw [xp_lin]
  refine List.Pairwise.map _ ?_ (List.pairwise_lt_range n)
  intro a b hab
  have hn : (0 : ℚ) < (n : ℚ) - 1 := by
    have h' : (2 : ℚ) ≤ (n : ℚ) := by exact_mod_cast h
    linarith
  exact div_lt_div_of_pos_right (by exact_mod_cast hab) hn

theorem np_interp_affine_div (m D x : ℚ) (hD : D ≠ 0) (xs ys : List ℚ)
    (hne : xs ≠ []) (hlen : xs.length = ys.length) :
    np_interp x xs (ys.map (fun v => (v - m) / D))
      = (np_interp x xs ys - m) / D := by
  have e : (fun v => (v - m) / D) = (fun v => (1/D) * v + (-(m/D))) := by
    funext v
    field_simp
    ring
  rw [e, np_interp_affine (1/D) (-(m/D)) x xs ys hne hlen]
  field_simp
  ring

theorem normRowAux_getD (cd : ClusterData) :
    ∀ (row : List ℚ) (k d : ℕ), d < row.length →
      (normRowAux cd k row).getD d 0
        = ((row.getD d 0) - outlineMin cd (k+d))
          / (outlineMax cd (k+d) - outlineMin cd (k+d)) := by
  intro row
  induction row with
  | nil => intro k d hd; simp at hd
  | cons v vs ih =>
      intro k d hd
      cases d with
      | zero => simp [normRowAux]
      | succ d' =>
          have hd' : d' < vs.length := by simpa using hd
          simp only [normRowAux, List.getD_cons_succ]
          rw [ih (k+1) d' hd']
          have e : k + 1 + d' = k + (d' + 1) := by omega
          rw [e]

theorem dimCol_norm (cd : ClusterData) (Y : List (List ℚ)) (d : ℕ)
    (hrow : ∀ row ∈ Y, d < row.length) :
    dimCol (Y.map (fun row => normRowAux cd 0 row)) d
      = (dimCol Y d).map
          (fun v => (v - outlineMin cd d) / (outlineMax cd d - outlineMin cd d)) := by
  unfold dimCol
  rw [List.map_map, List.map_map]
  apply List.map_congr_left
  intro row hmem
  simp only [Function.comp_apply]
  rw [normRowAux_getD cd row 0 d (hrow row hmem)]
  norm_num

theorem list_sum_map_div_sub {α : Type} (l : List α) (f : α → ℚ) (m D : ℚ) :
    (l.map (fun t => (f t - m) / D)).sum = ((l.map f).sum - l.length * m) / D := by
  induction l with
  | nil => simp
  | cons t l ih =>
      simp only [List.map_cons, List.sum_cons, ih, List.length_cons]
      push_cast
      ring

theorem outline_ne_of_range (cd : ClusterData) (d : ℕ)
    (h : outlineMin cd d < outlineMax cd d) : cd ≠ [] := by
  intro he
  rw [he] at h
  simp [outlineMin, outlineMax, listMinQ, listMaxQ] at h

theorem resampling_mu_physical (cd : ClusterData) (ngaus ndim : ℕ)
    (hg : 1 ≤ ngaus)
    (hwf : ∀ t ∈ cd, t.1 ≠ [] ∧ t.2.length = t.1.length
            ∧ ∀ row ∈ t.2, row.length = ndim)
    (hrange : ∀ d, d < ndim → outlineMin cd d < outlineMax cd d) :
    ∀ i, i < ngaus * ndim →
      model_by_resampling_mu cd ngaus i = spec_resampling_mu cd ngaus i := by
  intro i hi
  have hd : i / ngaus < ndim := by
    rw [Nat.div_lt_iff_lt_mul (Nat.lt_of_lt_of_le Nat.zero_lt_one hg)]
    rw [Nat.mul_comm]
    exact hi
  have hr := hrange (i / ngaus) hd
  have hD : outlineMax cd (i / ngaus) - outlineMin cd (i / ngaus) ≠ 0 :=
    sub_ne_zero.mpr (ne_of_gt hr)
  have hcd : cd ≠ [] := outline_ne_of_range cd (i / ngaus) hr
  have hlen0 : (cd.length : ℚ) ≠ 0 := by
    simpa [Nat.cast_eq_zero, List.length_eq_zero] using hcd
  unfold model_by_resampling_mu norm2real_mu resampling_mu_norm
    spec_resampling_mu outlineDvec outlineMvec normCD
  rw [List.map_map]
  rw [List.map_congr_left (l := cd)
    (f := (fun t => resampledVec ngaus t i) ∘
      (fun t => (t.1, t.2.map (fun row => normRowAux cd 0 row))))
    (g := fun t => ((resampledVec ngaus t i) - outlineMin cd (i / ngaus))
        / (outlineMax cd (i / ngaus) - outlineMin cd (i / ngaus)))
    ?_]
  · rw [list_sum_map_div_sub cd (fun t => resampledVec ngaus t i)
      (outlineMin cd (i / ngaus)) (outlineMax cd (i / ngaus) - outlineMin cd (i / ngaus))]
    field_simp
    ring
  · intro t ht
    obtain ⟨hne, hlen, hrow⟩ := hwf t ht
    simp only [Function.comp_apply]
    unfold resampledVec
    rw [dimCol_norm cd t.2 (i / ngaus)
      (fun row hr2 => by rw [hrow row hr2]; exact hd)]
    exact np_interp_affine_div _ _ _ hD t.1 (dimCol t.2 (i / ngaus)) hne
      (by unfold dimCol; rw [List.length_map]; omega)

theorem getD_map_getD (Y : List (List ℚ)) (d : ℕ) :
    ∀ m, (Y.map (fun r => r.getD d 0)).getD m 0 = (Y.getD m []).getD d 0 := by
  induction Y with
  | nil => intro m; simp
  | cons r Y ih =>
      intro m
      cases m with
      | zero => simp
      | succ m =>
          simp only [List.map_cons, List.getD_cons_succ]
          exact ih m

theorem resampling_const_curve (ngaus ndim n : ℕ) (Yc : List (List ℚ))
    (hg : 2 ≤ ngaus) (hn : 1 ≤ n)
    (hYlen : Yc.length = ngaus)
    (hrow : ∀ row ∈ Yc, row.length = ndim)
    (hrange : ∀ d, d < ndim →
       outlineMin (List.replicate n (xp_lin ngaus, Yc)) d
         < outlineMax (List.replicate n (xp_lin ngaus, Yc)) d) :
    (∀ i j, model_by_resampling_sig (List.replicate n (xp_lin ngaus, Yc)) ngaus ndim i j = 0)
    ∧ (∀ i, i < ngaus * ndim →
        model_by_resampling_mu (List.replicate n (xp_lin ngaus, Yc)) ngaus i
          = (Yc.getD (i % ngaus) []).getD (i / ngaus) 0) := by
  have hn0 : ((n : ℚ)) ≠ 0 := Nat.cast_ne_zero.mpr (by omega)
  have hmap : normCD (List.replicate n (xp_lin ngaus, Yc))
      = List.replicate n ((xp_lin ngaus),
          Yc.map (fun row => normRowAux (List.replicate n (xp_lin ngaus, Yc)) 0 row)) := by
    unfold normCD
    rw [List.map_replicate]
  have hmu : ∀ i, resampling_mu_norm (List.replicate n (xp_lin ngaus, Yc)) ngaus i
      = resampledVec ngaus ((xp_lin ngaus),
          Yc.map (fun row => normRowAux (List.replicate n (xp_lin ngaus, Yc)) 0 row)) i := by
    intro i
    unfold resampling_mu_norm
    rw [hmap, List.map_replicate, List.sum_replicate, List.length_replicate,
      nsmul_eq_mul, mul_div_cancel_left₀ _ hn0]
  have hsig0 : ∀ i j, resampling_sig_norm (List.replicate n (xp_lin ngaus, Yc)) ngaus i j = 0 := by
    intro i j
    unfold resampling_sig_norm
    rw [hmap, List.map_replicate, hmu i, hmu j]
    simp
  constructor
  · intro i j
    unfold model_by_resampling_sig norm2real_sig mmulN vsum
    apply Finset.sum_eq_zero
    intro k _
    rw [hsig0 i k, zero_mul]
  · intro i hi
    have hxne : xp_lin ngaus ≠ [] := by
      intro he
      have hl := xp_lin_length ngaus
      rw [he] at hl
      simp at hl
      omega
    have hwf : ∀ t ∈ List.replicate n (xp_lin ngaus, Yc),
        t.1 ≠ [] ∧ t.2.length = t.1.length ∧ ∀ row ∈ t.2, row.length = ndim := by
      intro t ht
      rw [List.eq_of_mem_replicate ht]
      exact ⟨hxne, by rw [xp_lin_length]; exact hYlen, hrow⟩
    rw [resampling_mu_physical (List.replicate n (xp_lin ngaus, Yc)) ngaus ndim
      (by omega) hwf hrange i hi]
    unfold spec_resampling_mu
    rw [List.map_replicate, List.sum_replicate, List.length_replicate,
      nsmul_eq_mul, mul_div_cancel_left₀ _ hn0]
    unfold resampledVec
    rw [np_interp_nodes (xp_lin ngaus) (dimCol Yc (i / ngaus))
      (xp_lin_pairwise ngaus hg)
      (by unfold dimCol; rw [xp_lin_length, List.length_map, hYlen])
      (i % ngaus)
      (by rw [xp_lin_length]; exact Nat.mod_lt _ (by omega))]
    unfold dimCol
    exact getD_map_getD Yc (i / ngaus) (i % ngaus)

/-- C9 (amended): (a) the mean returned by `model_by_resampling` is
exactly the population mean of the vectors obtained by resampling
each trajectory's physical `Y` at the `ngaus` control positions by
per-dimension `np.interp` against that trajectory's own `x` (the
forward Y-normalization and the `_norm2real` conversion cancel on the
mean); and (b) if every trajectory equals the same curve sampled at
the `ngaus` control points, the returned `Sigma` is identically `0`
and the returned `mu` is that curve at the control points.  The
returned `Sigma` is, however, not in general the population
covariance of the resampled vectors (see the counterexample): it is
the normalized-unit covariance multiplied on the right by
`diagflat(D**2)`. -/
theorem c9_resampling_spec :
    (∀ (cd : ClusterData) (ngaus ndim : ℕ), 1 ≤ ngaus →
      (∀ t ∈ cd, t.1 ≠ [] ∧ t.2.length = t.1.length
        ∧ ∀ row ∈ t.2, row.length = ndim) →
      (∀ d, d < ndim → outlineMin cd d < outlineMax cd d) →
      ∀ i, i < ngaus * ndim →
        model_by_resampling_mu cd ngaus i = spec_resampling_mu cd ngaus i)
    ∧ (∀ (ngaus ndim n : ℕ) (Yc : List (List ℚ)), 2 ≤ ngaus → 1 ≤ n →
        Yc.length = ngaus → (∀ row ∈ Yc, row.length = ndim) →
        (∀ d, d < ndim →
          outlineMin (List.replicate n (xp_lin ngaus, Yc)) d
            < outlineMax (List.replicate n (xp_lin ngaus, Yc)) d) →
        (∀ i j,
          model_by_resampling_sig (List.replicate n (xp_lin ngaus, Yc)) ngaus ndim i j = 0)
        ∧ (∀ i, i < ngaus * ndim →
            model_by_resampling_mu (List.replicate n (xp_lin ngaus, Yc)) ngaus i
              = (Yc.getD (i % ngaus) []).getD (i / ngaus) 0)) :=
  ⟨resampling_mu_physical,
   fun ngaus ndim n Yc hg hn hYlen hrow hrange =>
     resampling_const_curve ngaus ndim n Yc hg hn hYlen hrow hrange⟩

/-- C9 counterexample: on `asymCD` the covariance returned by
`model_by_resampling` (after the unit conversion) is `1` at entry
(0,2), while the population covariance of the resampled vectors --
what the spec says is returned -- is `1/2` there. -/
theorem c9_resampling_counterexample :
    model_by_resampling_sig asymCD 2 2 0 2 = 1
    ∧ spec_resampling_Sigma asymCD 2 0 2 = 1/2
    ∧ (1 : ℚ) ≠ 1/2 := by
  refine ⟨?_, ?_, by norm_num⟩ <;>
  norm_num [model_by_resampling_sig, norm2real_sig, mmulN, vsum, Finset.sum_range_succ,
    diagflatSq, outlineDvec, outlineMax, outlineMin, listMinQ, listMaxQ, dimCol,
    resampling_sig_norm, resampling_mu_norm, normCD, normRowAux, resampledVec,
    np_interp, xp_lin, asymCD, List.range_succ,
    spec_resampling_Sigma, spec_resampling_mu]

/-- Witness for `c9_resampling_spec` at concrete inputs: on `asymCD`
the returned mean agrees with the spec's population mean at index 0,
and for two copies of the 1-D curve `[[0],[1]]` sampled at the
control points the returned covariance is `0` and the returned mean
reproduces the curve at index 1. -/
theorem c9_resampling_spec_witness :
    model_by_resampling_mu asymCD 2 0 = spec_resampling_mu asymCD 2 0
    ∧ model_by_resampling_sig (List.replicate 2 (xp_lin 2, [[0],[1]])) 2 1 0 1 = 0
    ∧ model_by_resampling_mu (List.replicate 2 (xp_lin 2, [[0],[1]])) 2 1
        = (([[0],[1]] : List (List ℚ)).getD (1 % 2) []).getD (1 / 2) 0 := by
  have hwf : ∀ t ∈ asymCD, t.1 ≠ [] ∧ t.2.length = t.1.length
      ∧ ∀ row ∈ t.2, row.length = 2 := by
    intro t ht
    have h2 : t = (([0,1] : List ℚ), ([[0,0],[1,2]] : List (List ℚ)))
        ∨ t = (([0,1] : List ℚ), ([[1,2],[0,0]] : List (List ℚ))) := by
      simpa [asymCD] using ht
    rcases h2 with rfl | rfl
    · refine ⟨by simp, by simp, ?_⟩
      intro row hr
      rcases (by simpa using hr : row = [0,0] ∨ row = [1,2]) with rfl | rfl <;> simp
    · refine ⟨by simp, by simp, ?_⟩
      intro row hr
      rcases (by simpa using hr : row = [1,2] ∨ row = [0,0]) with rfl | rfl <;> simp
  have hrangeA : ∀ d, d < 2 → outlineMin asymCD d < outlineMax asymCD d := by
    intro d hd
    interval_cases d <;>
      norm_num [outlineMin, outlineMax, listMinQ, listMaxQ, dimCol, asymCD]
  have hrowW : ∀ row ∈ ([[0],[1]] : List (List ℚ)), row.length = 1 := by
    intro row hr
    rcases (by simpa using hr : row = [0] ∨ row = [1]) with rfl | rfl <;> simp
  have hrangeW : ∀ d, d < 1 →
      outlineMin (List.replicate 2 (xp_lin 2, ([[0],[1]] : List (List ℚ)))) d
        < outlineMax (List.replicate 2 (xp_lin 2, ([[0],[1]] : List (List ℚ)))) d := by
    intro d hd
    interval_cases d
    norm_num [outlineMin, outlineMax, listMinQ, listMaxQ, dimCol, List.replicate,
      xp_lin, List.range_succ]
  refine ⟨c9_resampling_spec.1 asymCD 2 2 (by norm_num) hwf hrangeA 0 (by norm_num), ?_, ?_⟩
  · exact (c9_resampling_spec.2 2 1 2 [[0],[1]] (by norm_num) (by norm_num)
      (by simp) hrowW hrangeW).1 0 1
  · exact (c9_resampling_spec.2 2 1 2 [[0],[1]] (by norm_num) (by norm_num)
      (by simp) hrowW hrangeW).2 1 (by norm_num)

theorem list_mapM_ok {α β : Type} (f : α → Except String β) (g : α → β) :
    ∀ l : List α, (∀ m ∈ l, f m = .ok (g m)) → l.mapM f = .ok (l.map g) := by
  intro l
  induction l with
  | nil => intro _; rfl
  | cons a l ih =>
      intro h
      rw [List.mapM_cons, h a (by simp), ih (fun m hm => h m (by simp [hm]))]
      rfl

/-- C8: decomposition inverts the shared flattening convention.  For
every family of `ngaus` cells with symmetric positive-definite
covariances, and every `repair` that (like the spec's nearest-SPD
projection) fixes SPD matrices, `_getGMMCells` applied to the
flattened mean and covariance returns exactly the original cells; and
`_getMuSigma` rejects every index outside `[0, ngaus)` with the
out-of-range `ValueError`. -/
theorem c8_cell_roundtrip (ngaus ndim : ℕ) (cells : ℕ → CellQ)
    (repair : (ℕ → ℕ → ℚ) → (ℕ → ℕ → ℚ))
    (hg : 1 ≤ ngaus)
    (hrepair : ∀ A, IsSPD ndim A → repair A = A)
    (hspd : ∀ m, m < ngaus → IsSPD ndim (cells m).2) :
    getGMMCells repair (flatten_mu ngaus cells) (flatten_sig ngaus cells) ngaus
      = .ok ((List.range ngaus).map cells)
    ∧ (∀ (mu_y : ℕ → ℚ) (sig_y : ℕ → ℕ → ℚ) (p : ℤ),
        (p < 0 ∨ (ngaus : ℤ) ≤ p) →
        getMuSigma mu_y sig_y p ngaus
          = .error (toString p ++ ", not in [0, " ++ toString ngaus ++ "]")) := by
  constructor
  · unfold getGMMCells
    apply list_mapM_ok _ cells
    intro m hm
    have hmlt : m < ngaus := List.mem_range.mp hm
    have hok : getMuSigma (flatten_mu ngaus cells) (flatten_sig ngaus cells) (m : ℤ) ngaus
        = .ok (fun d => flatten_mu ngaus cells (m + d * ngaus),
               fun d1 d2 => flatten_sig ngaus cells (m + d1 * ngaus) (m + d2 * ngaus)) := by
      unfold getMuSigma
      rw [if_neg]
      · rw [Int.toNat_natCast]
      · push_neg
        constructor
        · exact Int.natCast_nonneg m
        · exact_mod_cast hmlt
    rw [hok]
    have hmod : ∀ d : ℕ, (m + d * ngaus) % ngaus = m := by
      intro d
      rw [Nat.add_mul_mod_self_right, Nat.mod_eq_of_lt hmlt]
    have hdiv : ∀ d : ℕ, (m + d * ngaus) / ngaus = d := by
      intro d
      rw [Nat.add_mul_div_right m d (by omega), Nat.div_eq_of_lt hmlt, Nat.zero_add]
    have hmean : (fun d => flatten_mu ngaus cells (m + d * ngaus)) = (cells m).1 := by
      funext d
      unfold flatten_mu
      rw [hmod d, hdiv d]
    have hcov : (fun d1 d2 => flatten_sig ngaus cells (m + d1 * ngaus) (m + d2 * ngaus))
        = (cells m).2 := by
      funext d1 d2
      unfold flatten_sig
      rw [hmod d1, hmod d2, if_pos rfl, hdiv d1, hdiv d2]
    show Except.ok (fun d => flatten_mu ngaus cells (m + d * ngaus),
        repair (fun d1 d2 => flatten_sig ngaus cells (m + d1 * ngaus) (m + d2 * ngaus)))
      = Except.ok (cells m)
    rw [hmean, hcov, hrepair _ (hspd m hmlt)]
  · intro mu_y sig_y p hp
    unfold getMuSigma
    rw [if_pos hp]

/-- Witness for `c8_cell_roundtrip`: two 1-D cells with means `0`,
`1` and covariances `[1]`, `[2]`; the identity repair fixes SPD
matrices, flatten-then-decompose returns the cells, and index `-1` is
rejected. -/
theorem c8_cell_roundtrip_witness :
    getGMMCells id (flatten_mu 2 c8Cells) (flatten_sig 2 c8Cells) 2
      = .ok ((List.range 2).map c8Cells)
    ∧ getMuSigma (fun _ => 0) (fun _ _ => 0) (-1) 2
      = .error (toString (-1 : ℤ) ++ ", not in [0, " ++ toString (2 : ℕ) ++ "]") := by
  have hspd : ∀ m, m < 2 → IsSPD 1 (c8Cells m).2 := by
    intro m _
    constructor
    · intro d1 d2; rfl
    · intro x hx
      obtain ⟨d, hd, hxd⟩ := hx
      have hd0 : d = 0 := by omega
      subst hd0
      have he : vsum 1 (fun d1 => x d1 * vsum 1 (fun d2 => (c8Cells m).2 d1 d2 * x d2))
          = ((m : ℚ) + 1) * (x 0 * x 0) := by
        unfold vsum c8Cells
        rw [Finset.sum_range_one, Finset.sum_range_one]
        ring
      rw [he]
      have hm0 : (0 : ℚ) ≤ (m : ℚ) := Nat.cast_nonneg m
      have hm1 : (0 : ℚ) < (m : ℚ) + 1 := by linarith
      exact mul_pos hm1 (mul_self_pos.mpr hxd)
  have h := c8_cell_roundtrip 2 1 c8Cells id (by norm_num) (fun A _ => rfl) hspd
  exact ⟨h.1, h.2 (fun _ => 0) (fun _ _ => 0) (-1) (by norm_num)⟩

/-- C3: the conditioning check is `cond(sig_w) > 0`, which holds for
the condition number of every invertible matrix (it is at least 1; a
singular matrix gives `inf`), so `_L_pw` returns the sentinel `1e4`
on every reachable call -- in particular for every well-conditioned
`sig_w` -- and the determinant-based prior term is never computed. -/
theorem c3_L_pw_always_sentinel (condSigw log2pi logDetSigw : ℚ) (K : ℕ)
    (Ewc : List (ℕ → ℚ)) (Ewwc : List (ℕ → ℕ → ℚ)) (mu_w : ℕ → ℚ)
    (sig_w_inv : ℕ → ℕ → ℚ) (ndim nbasis : ℕ)
    (hcond : 0 < condSigw) :
    L_pw condSigw log2pi logDetSigw K Ewc Ewwc mu_w sig_w_inv ndim nbasis = 10000 := by
  unfold L_pw
  rw [if_pos hcond]

/-- Witness for `c3_L_pw_always_sentinel`: `sig_w` the identity
matrix has condition number exactly 1, the best possible, yet the
sentinel is returned. -/
theorem c3_L_pw_always_sentinel_witness :
    L_pw 1 0 0 4 [fun _ => 0] [fun _ _ => 0] (fun _ => 0)
      (fun i j => if i = j then 1 else 0) 2 2 = 10000 :=
  c3_L_pw_always_sentinel 1 0 0 4 [fun _ => 0] [fun _ _ => 0] (fun _ => 0)
    (fun i j => if i = j then 1 else 0) 2 2 (by norm_num)

theorem isInside_grid2_propagates
    (pnts : List (ℚ × ℚ) → Except String (List Bool))
    (sdw : ℚ) (xx yy : G2) (zz : Option G3) (msg : String)
    (hs : shape2 xx = shape2 yy)
    (hp : pnts ((grid2points2 xx yy).map (fun p => p.1)) = .error msg) :
    isInside_grid2 pnts [] sdw xx yy zz = .error msg := by
  unfold isInside_grid2
  rw [if_neg (by simp [hs])]
  simp only [List.foldl_nil]
  rw [hp]
  rfl

/-- C6: whenever there is exactly one transition cloud (`ngaus = 2`,
which construction accepts) or exactly one query point, the
slab-by-point membership matrix loses a dimension under `squeeze`,
and `np.any(..., axis=1)` raises an `AxisError` instead of returning
one boolean per query point; through `isInside_grid` the same error
propagates out of the grid query. -/
theorem c6_isInside_axis_error (ngaus npnts : ℕ) (lti : List (List Bool))
    (hslabs : lti.length = numTransitionClouds ngaus)
    (hg : 2 ≤ ngaus) (_hp : 1 ≤ npnts)
    (hrect : ∀ row ∈ lti, row.length = npnts)
    (hfail : ngaus = 2 ∨ npnts = 1) :
    ∃ msg, isInside_pnts_embed lti = .error msg
      ∧ ∀ (sdw : ℚ) (xx yy : G2) (zz : Option G3)
          (pnts : List (ℚ × ℚ) → Except String (List Bool)),
          shape2 xx = shape2 yy →
          pnts ((grid2points2 xx yy).map (fun p => p.1)) = .error msg →
          isInside_grid2 pnts [] sdw xx yy zz = .error msg := by
  have hr : lti.length = ngaus - 1 := hslabs
  have hne : lti ≠ [] := by
    intro he
    rw [he] at hr
    simp at hr
    omega
  have hc : (lti.headD []).length = npnts := by
    cases lti with
    | nil => exact absurd rfl hne
    | cons row rest => exact hrect row (by simp)
  have hor : lti.length = 1 ∨ (lti.headD []).length = 1 := by
    rcases hfail with h | h
    · left; omega
    · right; omega
  by_cases hR : lti.length = 1 <;> by_cases hC : (lti.headD []).length = 1
  · obtain ⟨row, rfl⟩ : ∃ row, lti = [row] := by
      cases lti with
      | nil => exact absurd rfl hne
      | cons a l =>
          cases l with
          | nil => exact ⟨a, rfl⟩
          | cons b l2 => simp at hR
    obtain ⟨b, rfl⟩ := List.length_eq_one.mp (by simpa using hC)
    exact ⟨"AxisError: axis 1 is out of bounds for array of dimension 0", rfl,
      fun sdw xx yy zz pnts hs hperr =>
        isInside_grid2_propagates pnts sdw xx yy zz _ hs hperr⟩
  · obtain ⟨row, rfl⟩ : ∃ row, lti = [row] := by
      cases lti with
      | nil => exact absurd rfl hne
      | cons a l =>
          cases l with
          | nil => exact ⟨a, rfl⟩
          | cons b l2 => simp at hR
    have hC2 : ¬ row.length = 1 := by simpa using hC
    refine ⟨"AxisError: axis 1 is out of bounds for array of dimension 1", ?_,
      fun sdw xx yy zz pnts hs hperr =>
        isInside_grid2_propagates pnts sdw xx yy zz _ hs hperr⟩
    unfold isInside_pnts_embed
    simp [npSqueeze, hC2, npTransposeB, npAnyAxis1]
  · obtain ⟨row, rest, rfl⟩ : ∃ row rest, lti = row :: rest := by
      cases lti with
      | nil => exact absurd rfl hne
      | cons a l => exact ⟨a, l, rfl⟩
    obtain ⟨r2, rest2, rfl⟩ : ∃ r2 rest2, rest = r2 :: rest2 := by
      cases rest with
      | nil => simp at hR
      | cons a l => exact ⟨a, l, rfl⟩
    have hC2 : row.length = 1 := by simpa using hC
    refine ⟨"AxisError: axis 1 is out of bounds for array of dimension 1", ?_,
      fun sdw xx yy zz pnts hs hperr =>
        isInside_grid2_propagates pnts sdw xx yy zz _ hs hperr⟩
    unfold isInside_pnts_embed
    simp [npSqueeze, hC2, npTransposeB, npAnyAxis1]
  · exact absurd hor (by tauto)

/-- Witness for `c6_isInside_axis_error`: `ngaus = 2` (a single
transition cloud) with two query points, membership `[[true,
false]]`; both the point query and the grid query on the 1x1 grid
`[[0]]` fail with the axis error. -/
theorem c6_isInside_axis_error_witness :
    ∃ msg, isInside_pnts_embed [[true, false]] = .error msg
      ∧ isInside_grid2 (fun _ => isInside_pnts_embed [[true, false]]) [] 1
          [[0]] [[0]] none = .error msg := by
  obtain ⟨msg, h1, h2⟩ := c6_isInside_axis_error 2 2 [[true, false]]
    (by simp [numTransitionClouds]) (by norm_num) (by norm_num)
    (by intro row hrow
        rcases (by simpa using hrow : row = [true, false]) with rfl
        simp)
    (Or.inl rfl)
  exact ⟨msg, h1, h2 1 [[0]] [[0]] none (fun _ => isInside_pnts_embed [[true, false]])
    rfl h1⟩

/-- C7 (amended): the grid queries reject with the
dimension-mismatch `ValueError` exactly those grids whose `xx` and
`yy` axis arrays disagree in shape; the `zz` axis array is never
compared, so with `xx` and `yy` agreeing the query proceeds to
evaluate the grid whatever the shape of `zz`. -/
theorem c7_grid_shape_check :
    (∀ (evalO : ℚ → ℚ → ℚ → EF) (cache : List LogpEntry3) (xx yy zz : G3),
      shape3 xx ≠ shape3 yy →
      evalLogLikelihood3 evalO cache xx yy zz
        = .error "dimensions should equal (use np.mgrid)")
    ∧ (∀ (pnts : List (ℚ × ℚ × ℚ) → Except String (List Bool))
        (cache : List TubeEntry3) (sdw : ℚ) (xx yy zz : G3),
        shape3 xx ≠ shape3 yy →
        isInside_grid3 pnts cache sdw xx yy zz
          = .error "dimensions should equal (use np.mgrid)")
    ∧ (∀ (evalO : ℚ → ℚ → EF) (cache : List LogpEntry2) (xx yy : G2) (zz : Option G3),
        shape2 xx ≠ shape2 yy →
        evalLogLikelihood2 evalO cache xx yy zz
          = .error "dimensions should equal (use np.mgrid)")
    ∧ (∀ (pnts : List (ℚ × ℚ) → Except String (List Bool))
        (cache : List TubeEntry2) (sdw : ℚ) (xx yy : G2) (zz : Option G3),
        shape2 xx ≠ shape2 yy →
        isInside_grid2 pnts cache sdw xx yy zz
          = .error "dimensions should equal (use np.mgrid)")
    ∧ (∀ (evalO : ℚ → ℚ → ℚ → EF) (xx yy zz : G3),
        shape3 xx = shape3 yy →
        ∃ r, evalLogLikelihood3 evalO [] xx yy zz = .ok r)
    ∧ (∀ (pnts : List (ℚ × ℚ × ℚ) → Except String (List Bool)) (sdw : ℚ) (xx yy zz : G3),
        shape3 xx = shape3 yy →
        (∀ P, ∃ bs, pnts P = .ok bs) →
        ∃ r, isInside_grid3 pnts [] sdw xx yy zz = .ok r) := by
  refine ⟨?_, ?_, ?_, ?_, ?_, ?_⟩
  · intro evalO cache xx yy zz hne
    unfold evalLogLikelihood3
    rw [if_pos hne]
  · intro pnts cache sdw xx yy zz hne
    unfold isInside_grid3
    rw [if_pos hne]
  · intro evalO cache xx yy zz hne
    unfold evalLogLikelihood2
    rw [if_pos hne]
  · intro pnts cache sdw xx yy zz hne
    unfold isInside_grid2
    rw [if_pos hne]
  · intro evalO xx yy zz hs
    unfold evalLogLikelihood3
    rw [if_neg (by simp [hs])]
    exact ⟨_, rfl⟩
  · intro pnts sdw xx yy zz hs hok
    obtain ⟨bs, hbs⟩ := hok ((grid2points3 xx yy zz).map (fun p => p.1))
    unfold isInside_grid3
    rw [if_neg (by simp [hs])]
    simp only [List.foldl_nil]
    rw [hbs]
    exact ⟨_, rfl⟩

/-- C7 counterexample: `xx = [[[1]]]` and `yy = [[[2]]]` agree in
shape `(1,1,1)` while `zz = [[[3,4]]]` has shape `(1,1,2)` -- the
axis arrays disagree.  Neither grid query rejects: both proceed,
evaluate the grid (two points, one per `z` entry) and return a
result. -/
theorem c7_grid_shape_counterexample :
    shape3 ([[[3,4]]] : G3) ≠ shape3 ([[[1]]] : G3)
    ∧ evalLogLikelihood3 (fun _ _ z => EF.fin z) [] [[[1]]] [[[2]]] [[[3,4]]]
        = .ok ([[[EF.fin 3, EF.fin 4]]],
               [⟨[[[EF.fin 3, EF.fin 4]]], [[[1]]], [[[2]]], [[[3,4]]]⟩])
    ∧ isInside_grid3 (fun P => .ok (P.map (fun _ => true))) [] 1 [[[1]]] [[[2]]] [[[3,4]]]
        = .ok ([[[EF.fin 1, EF.fin 1]]],
               [⟨[[[EF.fin 1, EF.fin 1]]], 1, [[[1]]], [[[2]]], [[[3,4]]]⟩]) := by
  refine ⟨by decide, ?_, ?_⟩ <;> rfl

/-- Witness for `c7_grid_shape_check`: a 3-D grid whose `yy` has an
extra row is rejected by both queries, and with agreeing `xx`, `yy`
the log-density query returns a result. -/
theorem c7_grid_shape_check_witness :
    evalLogLikelihood3 (fun _ _ _ => EF.fin 0) [] [[[1]]] [[[1],[2]]] [[[1]]]
      = .error "dimensions should equal (use np.mgrid)"
    ∧ isInside_grid3 (fun _ => .ok []) [] 1 [[[1]]] [[[1],[2]]] [[[1]]]
      = .error "dimensions should equal (use np.mgrid)"
    ∧ evalLogLikelihood2 (fun _ _ => EF.fin 0) [] [[1]] [[1],[2]] none
      = .error "dimensions should equal (use np.mgrid)"
    ∧ isInside_grid2 (fun _ => .ok []) [] 1 [[1]] [[1],[2]] none
      = .error "dimensions should equal (use np.mgrid)"
    ∧ ∃ r, evalLogLikelihood3 (fun _ _ _ => EF.fin 0) [] [[[1]]] [[[2]]] [[[3]]] = .ok r := by
  refine ⟨c7_grid_shape_check.1 _ [] _ _ _ (by decide),
    c7_grid_shape_check.2.1 _ [] 1 _ _ _ (by decide),
    c7_grid_shape_check.2.2.1 _ [] _ _ none (by decide),
    c7_grid_shape_check.2.2.2.1 _ [] 1 _ _ none (by decide),
    c7_grid_shape_check.2.2.2.2.1 _ _ _ _ (by decide)⟩

theorem EF_emin_not_nan (a b : EF) (ha : a.isNan = false) (hb : b.isNan = false) :
    (a.emin b).isNan = false := by
  cases a <;> cases b <;> simp_all [EF.emin, EF.isNan]

theorem foldl_emin_not_nan :
    ∀ (xs : List EF) (x : EF), x.isNan = false → (∀ v ∈ xs, v.isNan = false) →
      (xs.foldl EF.emin x).isNan = false := by
  intro xs
  induction xs with
  | nil => intro x hx _; exact hx
  | cons y ys ih =>
      intro x hx hall
      simp only [List.foldl_cons]
      exact ih (x.emin y) (EF_emin_not_nan x y hx (hall y (by simp)))
        (fun v hv => hall v (by simp [hv]))

theorem nanminEF_not_nan (l : List EF) (h : ∃ v ∈ l, v.isNan = false) :
    (nanminEF l).isNan = false := by
  obtain ⟨v, hv, hvn⟩ := h
  unfold nanminEF
  have hmem : v ∈ l.filter (fun v => !v.isNan) := by
    rw [List.mem_filter]
    exact ⟨hv, by rw [hvn]; rfl⟩
  cases hf : l.filter (fun v => !v.isNan) with
  | nil => rw [hf] at hmem; simp at hmem
  | cons x xs =>
      apply foldl_emin_not_nan xs x
      · have hx : x ∈ l.filter (fun v => !v.isNan) := by rw [hf]; simp
        have := (List.mem_filter.mp hx).2
        simpa using this
      · intro w hw
        have hx : w ∈ l.filter (fun v => !v.isNan) := by rw [hf]; simp [hw]
        have := (List.mem_filter.mp hx).2
        simpa using this

/-- C5 (amended): after the full grid is computed,
`evalLogLikelihood` replaces exactly the NaN entries -- each by
`np.nanmin` of the grid, the minimum over its non-NaN entries (a
value that can itself be `-inf`); `+inf` and `-inf` entries are left
in place.  Consequently, whenever at least one grid point is not NaN
the returned grid contains no NaN -- but it need not be finite (see
the counterexample). -/
theorem c5_nan_replacement :
    (∀ (ss : List (List EF)) (i j : ℕ), i < ss.length → j < (ss.getD i []).length →
      get2 (replaceNan2 ss) i j (EF.fin 0)
        = if (get2 ss i j (EF.fin 0)).isNan then nanminEF ss.flatten
          else get2 ss i j (EF.fin 0))
    ∧ (∀ ss : List (List EF), (∃ v ∈ ss.flatten, v.isNan = false) →
        ∀ v ∈ (replaceNan2 ss).flatten, v.isNan = false)
    ∧ (∀ (evalO : ℚ → ℚ → EF) (xx yy : G2) (zz : Option G3),
        shape2 xx = shape2 yy →
        evalLogLikelihood2 evalO [] xx yy zz
          = .ok (replaceNan2 (points2grid2 (EF.fin 0)
                  ((grid2points2 xx yy).map (fun p => evalO p.1.1 p.1.2))
                  ((grid2points2 xx yy).map (fun p => p.2))),
             [⟨replaceNan2 (points2grid2 (EF.fin 0)
                  ((grid2points2 xx yy).map (fun p => evalO p.1.1 p.1.2))
                  ((grid2points2 xx yy).map (fun p => p.2))), xx, yy, zz⟩])) := by
  refine ⟨?_, ?_, ?_⟩
  · intro ss i j hi hj
    unfold replaceNan2 get2
    rw [List.getD_eq_getElem ss [] hi] at hj ⊢
    have hi2 : i < (ss.map (fun row => row.map
        (fun v => if v.isNan then nanminEF ss.flatten else v))).length := by
      rw [List.length_map]; exact hi
    rw [List.getD_eq_getElem _ [] hi2, List.getElem_map]
    have hj2 : j < (ss[i].map
        (fun v => if v.isNan then nanminEF ss.flatten else v)).length := by
      rw [List.length_map]; exact hj
    rw [List.getD_eq_getElem _ (EF.fin 0) hj2, List.getElem_map,
      List.getD_eq_getElem _ (EF.fin 0) hj]
  · intro ss hex v hv
    unfold replaceNan2 at hv
    rw [← List.map_flatten] at hv
    obtain ⟨u, hu, rfl⟩ := List.mem_map.mp hv
    by_cases hun : u.isNan
    · rw [if_pos hun]
      exact nanminEF_not_nan ss.flatten hex
    · rw [if_neg hun]
      simpa using hun
  · intro evalO xx yy zz hs
    unfold evalLogLikelihood2
    rw [if_neg (by simp [hs])]
    rfl

/-- C5 counterexample: the grid `xx = [[0,0]]`, `yy = [[0,1]]`
evaluates to `[[+inf, 7]]`: one point is `+inf` (non-finite) and one
is finite, yet the returned grid still contains `+inf` -- only NaN
entries are ever replaced, so the claim that every non-finite value
is replaced by the minimum finite value fails. -/
theorem c5_nan_replacement_counterexample :
    evalLogLikelihood2 (fun _ y => if y = 0 then EF.pinf else EF.fin 7) []
        [[0,0]] [[0,1]] none
      = .ok ([[EF.pinf, EF.fin 7]],
             [⟨[[EF.pinf, EF.fin 7]], [[0,0]], [[0,1]], none⟩])
    ∧ EF.pinf.isFinite = false
    ∧ (EF.fin 7).isFinite = true := by
  exact ⟨rfl, rfl, rfl⟩

/-- Witness for `c5_nan_replacement`: a grid holding one NaN and one
finite value: the NaN entry becomes the minimum (2), the finite entry
survives, and no NaN remains. -/
theorem c5_nan_replacement_witness :
    get2 (replaceNan2 [[EF.nan, EF.fin 2]]) 0 0 (EF.fin 0)
      = (if (get2 [[EF.nan, EF.fin 2]] 0 0 (EF.fin 0)).isNan
          then nanminEF ([[EF.nan, EF.fin 2]] : List (List EF)).flatten
          else get2 [[EF.nan, EF.fin 2]] 0 0 (EF.fin 0))
    ∧ (∀ v ∈ (replaceNan2 [[EF.nan, EF.fin 2]]).flatten, v.isNan = false)
    ∧ evalLogLikelihood2 (fun _ _ => EF.fin 3) [] [[0]] [[0]] none
        = .ok (replaceNan2 (points2grid2 (EF.fin 0)
                ((grid2points2 [[0]] [[0]]).map (fun p => (fun _ _ => EF.fin 3) p.1.1 p.1.2))
                ((grid2points2 [[0]] [[0]]).map (fun p => p.2))),
           [⟨replaceNan2 (points2grid2 (EF.fin 0)
                ((grid2points2 [[0]] [[0]]).map (fun p => (fun _ _ => EF.fin 3) p.1.1 p.1.2))
                ((grid2points2 [[0]] [[0]]).map (fun p => p.2))), [[0]], [[0]], none⟩]) := by
  refine ⟨c5_nan_replacement.1 [[EF.nan, EF.fin 2]] 0 0 (by norm_num) (by norm_num),
    c5_nan_replacement.2.1 [[EF.nan, EF.fin 2]] ⟨EF.fin 2, by simp, rfl⟩,
    c5_nan_replacement.2.2 (fun _ _ => EF.fin 3) [[0]] [[0]] none rfl⟩

theorem foldl_if_none {α β : Type} (l : List α) (f : α → β) (p : α → Bool)
    (h : ∀ e ∈ l, p e = false) :
    l.foldl (fun acc e => if p e then some (f e) else acc) none = none := by
  induction l with
  | nil => rfl
  | cons a l ih =>
      simp only [List.foldl_cons, h a (by simp)]
      exact ih (fun e he => h e (by simp [he]))

theorem bidx_lt (dim i : ℕ) (hi : i < dim) : bidx dim i = i := by
  unfold bidx
  by_cases h1 : dim = 1
  · rw [if_pos h1]; omega
  · rw [if_neg h1]

/-- C10 (amended): a cache entry whose grids have the same shape as
the query and differ from it in some coordinate never matches
(`npAllEq2` is false), so two structurally distinct same-shape grids
never share an entry: when no entry matches, the call recomputes its
own result and appends exactly one new entry, leaving every stored
entry unchanged.  (A stored grid that is merely broadcast-compatible
with the query and elementwise equal under broadcasting -- e.g. a
`(1,n)` grid against its `(m,n)` row repetition -- does match, and is
then wrongly reused; see the counterexample.) -/
theorem c10_cache_distinct :
    (∀ (A B : G2), shape2 A = shape2 B →
      (∃ i j, i < A.length ∧ j < (A.headD []).length
        ∧ get2 A i j 0 ≠ get2 B i j 0) →
      npAllEq2 A B = false)
    ∧ (∀ (evalO : ℚ → ℚ → EF) (cache : List LogpEntry2) (xx yy : G2) (zz : Option G3),
        shape2 xx = shape2 yy →
        (∀ e ∈ cache,
          (npAllEq2 e.xx xx && npAllEq2 e.yy yy && npAllEqOpt3 e.zz zz) = false) →
        evalLogLikelihood2 evalO cache xx yy zz
          = .ok (replaceNan2 (points2grid2 (EF.fin 0)
                  ((grid2points2 xx yy).map (fun p => evalO p.1.1 p.1.2))
                  ((grid2points2 xx yy).map (fun p => p.2))),
             cache ++ [⟨replaceNan2 (points2grid2 (EF.fin 0)
                  ((grid2points2 xx yy).map (fun p => evalO p.1.1 p.1.2))
                  ((grid2points2 xx yy).map (fun p => p.2))), xx, yy, zz⟩])) := by
  constructor
  · intro A B hs hex
    obtain ⟨i, j, hi, hj, hne⟩ := hex
    have hr : A.length = B.length := congrArg Prod.fst hs
    have hc : (A.headD []).length = (B.headD []).length := congrArg Prod.snd hs
    unfold npAllEq2
    rw [← hr, ← hc]
    rw [if_pos (by simp [bcastOK])]
    simp only [Nat.max_self]
    rw [Bool.eq_false_iff]
    intro hall
    have h1 := List.all_eq_true.mp hall i (List.mem_range.mpr hi)
    have h2 := List.all_eq_true.mp h1 j (List.mem_range.mpr hj)
    rw [bidx_lt _ _ hi, bidx_lt _ _ hj] at h2
    exact hne (of_decide_eq_true h2)
  · intro evalO cache xx yy zz hs hmiss
    unfold evalLogLikelihood2
    rw [if_neg (by simp [hs])]
    rw [foldl_if_none cache (fun e => e.ss)
      (fun e => npAllEq2 e.xx xx && npAllEq2 e.yy yy && npAllEqOpt3 e.zz zz) hmiss]

/-- C10 counterexample: the 1x2 grid `(xx,yy) = ([[0,1]], [[5,6]])`
is stored; the structurally distinct 2x2 grid `([[0,1],[0,1]],
[[5,6],[5,6]])` broadcast-matches it, so the second call returns the
stored 1x2 result and appends nothing -- although a fresh evaluation
of the 2x2 grid yields a different (2x2) result. -/
theorem c10_cache_counterexample :
    shape2 ([[0,1],[0,1]] : G2) ≠ shape2 ([[0,1]] : G2)
    ∧ evalLogLikelihood2 (fun _ y => EF.fin y) [] [[0,1]] [[5,6]] none
      = .ok ([[EF.fin 5, EF.fin 6]], [⟨[[EF.fin 5, EF.fin 6]], [[0,1]], [[5,6]], none⟩])
    ∧ evalLogLikelihood2 (fun _ y => EF.fin y)
        [⟨[[EF.fin 5, EF.fin 6]], [[0,1]], [[5,6]], none⟩]
        [[0,1],[0,1]] [[5,6],[5,6]] none
      = .ok ([[EF.fin 5, EF.fin 6]],
             [⟨[[EF.fin 5, EF.fin 6]], [[0,1]], [[5,6]], none⟩])
    ∧ evalLogLikelihood2 (fun _ y => EF.fin y) [] [[0,1],[0,1]] [[5,6],[5,6]] none
      = .ok ([[EF.fin 5, EF.fin 6], [EF.fin 5, EF.fin 6]],
             [⟨[[EF.fin 5, EF.fin 6], [EF.fin 5, EF.fin 6]],
               [[0,1],[0,1]], [[5,6],[5,6]], none⟩])
    ∧ ([[EF.fin 5, EF.fin 6]] : List (List EF))
        ≠ [[EF.fin 5, EF.fin 6], [EF.fin 5, EF.fin 6]] := by
  refine ⟨by decide, rfl, rfl, rfl, by decide⟩

/-- Witness for `c10_cache_distinct`: the same-shape grids `[[1]]`
and `[[2]]` differ at (0,0) and do not match; a query on `[[0]]`
against a cache holding only the non-matching grid `[[9]]`
recomputes and appends its own entry. -/
theorem c10_cache_distinct_witness :
    npAllEq2 [[1]] [[2]] = false
    ∧ evalLogLikelihood2 (fun _ _ => EF.fin 4)
        [⟨[[EF.fin 9]], [[9]], [[9]], none⟩] [[0]] [[0]] none
      = .ok (replaceNan2 (points2grid2 (EF.fin 0)
                ((grid2points2 [[0]] [[0]]).map (fun p => (fun _ _ => EF.fin 4) p.1.1 p.1.2))
                ((grid2points2 [[0]] [[0]]).map (fun p => p.2))),
           [⟨[[EF.fin 9]], [[9]], [[9]], none⟩]
             ++ [⟨replaceNan2 (points2grid2 (EF.fin 0)
                ((grid2points2 [[0]] [[0]]).map (fun p => (fun _ _ => EF.fin 4) p.1.1 p.1.2))
                ((grid2points2 [[0]] [[0]]).map (fun p => p.2))), [[0]], [[0]], none⟩]) := by
  refine ⟨?_, ?_⟩
  · exact c10_cache_distinct.1 [[1]] [[2]] rfl
      ⟨0, 0, by norm_num, by norm_num, by norm_num [get2]⟩
  · refine c10_cache_distinct.2 (fun _ _ => EF.fin 4)
      [⟨[[EF.fin 9]], [[9]], [[9]], none⟩] [[0]] [[0]] none rfl ?_
    intro e he
    rcases (by simpa using he : e = ⟨[[EF.fin 9]], [[9]], [[9]], none⟩) with rfl
    decide

/-- C1: for every valid settings dictionary the construction never
returns a model: all three estimators return the 4-tuple
`(mu_y, sig_y, cc, cA)` while `Model.__init__` binds
`(mu_y, sig_y) = gp.model_by_*(...)`, so the constructor always
raises `ValueError: too many values to unpack` -- whatever the
numeric payloads are. -/
theorem c1_construct_unpack_error (s : PySettings)
    (rmu : List ℚ) (rsig : List (List ℚ)) (rcc : List (List ℚ)) (rcA : List (List (List ℚ)))
    (mmu : List ℚ) (msig : List (List ℚ)) (mcc : List (List ℚ)) (mcA : List (List (List ℚ)))
    (emu : List ℚ) (esig : List (List ℚ)) (ecc : List (List ℚ)) (ecA : List (List (List ℚ)))
    (hv : validSettings s) :
    Model_init s (estimator_return_tuple rmu rsig rcc rcA)
      (estimator_return_tuple mmu msig mcc mcA)
      (estimator_return_tuple emu esig ecc ecA)
      = .error "ValueError: too many values to unpack (expected 2)" := by
  obtain ⟨mt, ng, hmt, hmtv, hng, hng2, hbasis⟩ := hv
  rcases hmtv with rfl | rfl | rfl
  · unfold Model_init
    simp only [hmt, hng]
    rw [if_neg (by decide)]
    rfl
  · obtain ⟨⟨bt, hbt⟩, nb, hnb, hnb2⟩ := hbasis (Or.inl rfl)
    unfold Model_init
    simp only [hmt, hng, hbt, hnb]
    rw [if_pos (Or.inl trivial), if_neg (by omega)]
    rfl
  · obtain ⟨⟨bt, hbt⟩, nb, hnb, hnb2⟩ := hbasis (Or.inr rfl)
    unfold Model_init
    simp only [hmt, hng, hbt, hnb]
    rw [if_pos (Or.inr trivial), if_neg (by omega)]
    rfl

/-- Witness for `c1_construct_unpack_error`: the valid settings
`{model_type: "resampling", ngaus: 2}` with empty payloads still
crash the constructor. -/
theorem c1_construct_unpack_error_witness :
    Model_init ⟨some (.pystr "resampling"), some (.pyint 2), none, none⟩
      (estimator_return_tuple [] [] [] [])
      (estimator_return_tuple [] [] [] [])
      (estimator_return_tuple [] [] [] [])
      = .error "ValueError: too many values to unpack (expected 2)" :=
  c1_construct_unpack_error _ [] [] [] [] [] [] [] [] [] [] [] []
    ⟨"resampling", 2, rfl, Or.inl rfl, rfl, by norm_num, by simp⟩

/-- Witness for `c2_sigma_symmetry` at concrete inputs: the
resampling covariance of `asymCD` in estimation space is symmetric at
(0,2); a concrete symmetric `sig_w` stays symmetric under a concrete
prediction matrix; and on the one-dimensional `oneDimCD` the
physical-units conversion keeps (0,1)/(1,0) equal. -/
theorem c2_sigma_symmetry_witness :
    resampling_sig_norm asymCD 2 0 2 = resampling_sig_norm asymCD 2 2 0
    ∧ mmulN 2 (mmulN 2 (fun i j => (i : ℚ) + j) (fun _ _ => 1))
        (transposeF (fun i j => (i : ℚ) + j)) 0 1
      = mmulN 2 (mmulN 2 (fun i j => (i : ℚ) + j) (fun _ _ => 1))
        (transposeF (fun i j => (i : ℚ) + j)) 1 0
    ∧ norm2real_sig oneDimCD 2 2 (fun _ _ => 1) 0 1
      = norm2real_sig oneDimCD 2 2 (fun _ _ => 1) 1 0 := by
  refine ⟨c2_sigma_symmetry.1 asymCD 2 0 2, ?_, ?_⟩
  · exact c2_sigma_symmetry.2.1 2 (fun i j => (i : ℚ) + j) (fun _ _ => 1)
      (fun _ _ => rfl) 0 1
  · refine c2_sigma_symmetry.2.2 oneDimCD 2 2 (fun _ _ => 1) (fun _ _ => rfl)
      (fun i j hi hj => ?_) 0 1 (by norm_num) (by norm_num)
    unfold outlineDvec
    rw [Nat.div_eq_of_lt hi, Nat.div_eq_of_lt hj]
